import Mathlib

/-!
Verification of the trust-chain SDK core against its specification.

Bytes are modelled as `List Nat` with values below 256 (a `Uint8Array`).
JavaScript functions that throw are modelled as `Except`/`Option`-returning
functions.  External cryptographic primitives (signature verification,
AEAD, sealed boxes, KDF) are taken as function parameters, with their
correctness properties (round-trip, authenticity) as hypotheses where a
theorem needs them.
-/

namespace Tanker

/-! ### Sizes (tcrypto constants, spec section 6 payload layouts) -/

def HASH_SIZE : Nat := 32
def SIGNATURE_SIZE : Nat := 64
def SIGNATURE_PUBLIC_KEY_SIZE : Nat := 32
def ENCRYPTION_PUBLIC_KEY_SIZE : Nat := 32
def MAC_SIZE : Nat := 16
def SYMMETRIC_KEY_SIZE : Nat := 32
def XCHACHA_IV_SIZE : Nat := 24
def SEALED_KEY_SIZE : Nat := 80
def SEALED_ENCRYPTION_PRIVATE_KEY_SIZE : Nat := 80
def SEALED_SIGNATURE_PRIVATE_KEY_SIZE : Nat := 96

/-- JavaScript `Number.MAX_SAFE_INTEGER`, used by the payload parsers as the
`revoked` sentinel of a device that is not revoked. -/
def MAX_SAFE_INTEGER : Nat := 2 ^ 53 - 1

/-! ### varint (the npm `varint` package used by the block codec)

`varint.encode` produces the LEB128 bytes of a natural number;
`varint.decode` reads them back, throwing a `RangeError` when it runs out
of input or when `shift` exceeds 49 (more than eight bytes). -/

/-- Fuel-driven worker for `varintEncode`; `fuel = n` always suffices. -/
def varintEncodeAux : Nat → Nat → List Nat
  | 0, n => [n % 128]
  | fuel + 1, n => if n < 128 then [n] else (n % 128 + 128) :: varintEncodeAux fuel (n / 128)

/-- LEB128 encoding of a natural number (`varint.encode`). -/
def varintEncode (n : Nat) : List Nat := varintEncodeAux n n

theorem varintEncodeAux_fuel_irrel (f1 : Nat) : ∀ f2 n, n ≤ f1 → n ≤ f2 →
    varintEncodeAux f1 n = varintEncodeAux f2 n := by
  induction f1 using Nat.strong_induction_on with
  | _ f1 ih =>
    intro f2 n h1 h2
    match f1, f2 with
    | 0, 0 => rfl
    | 0, f2 + 1 =>
      interval_cases n
      simp [varintEncodeAux]
    | f1 + 1, 0 =>
      interval_cases n
      simp [varintEncodeAux]
    | f1 + 1, f2 + 1 =>
      simp only [varintEncodeAux]
      by_cases hn : n < 128
      · simp [hn]
      · simp only [if_neg hn]
        have hd : n / 128 < n := Nat.div_lt_self (by omega) (by omega)
        rw [ih f1 (by omega) f2 (n / 128) (by omega) (by omega)]

theorem varintEncode_lt {n : Nat} (h : n < 128) : varintEncode n = [n] := by
  unfold varintEncode
  match n with
  | 0 => rfl
  | n + 1 => simp [varintEncodeAux, h]

theorem varintEncode_ge {n : Nat} (h : 128 ≤ n) :
    varintEncode n = (n % 128 + 128) :: varintEncode (n / 128) := by
  unfold varintEncode
  match n, h with
  | n + 1, _ =>
    simp only [varintEncodeAux, if_neg (by omega : ¬ n + 1 < 128)]
    congr 1
    exact varintEncodeAux_fuel_irrel n ((n + 1) / 128) ((n + 1) / 128)
      (by have := Nat.div_lt_self (show 0 < n + 1 by omega) (show 1 < 128 by omega); omega)
      le_rfl

/-- Errors thrown by the block parsers: `UpgradeRequiredError` for an
unsupported version or nature, `InvalidFormat` for truncated input
(spec section 4.1; the `Blocks/Serialize.js` helpers are modelled from the
spec), and the `RangeError` thrown by the `varint` library when a varint
itself is truncated or too long. -/
inductive ParseErr where
  | upgradeRequired
  | invalidFormat
  | rangeError
deriving DecidableEq, Repr

/-- `varint.decode`'s read loop: consumes continuation bytes (high bit set),
accumulating `(b & 0x7f) * 2 ^ shift`; throws `RangeError` when it runs out
of bytes or when `shift` exceeds 49.  Returns the value and the number of
bytes consumed. -/
def varintDecodeLoop : List Nat → Nat → Except ParseErr (Nat × Nat)
  | l, shift =>
    if shift > 49 then .error .rangeError
    else
      match l with
      | [] => .error .rangeError
      | b :: rest =>
        if 128 ≤ b then
          match varintDecodeLoop rest (shift + 7) with
          | .ok (v, c) => .ok (b % 128 * 2 ^ shift + v, c + 1)
          | .error e => .error e
        else .ok (b % 128 * 2 ^ shift, 1)

theorem varintDecodeLoop_encode : ∀ n rest shift, shift ≤ 49 → 7 ∣ shift →
    n < 2 ^ (56 - shift) →
    varintDecodeLoop (varintEncode n ++ rest) shift =
      .ok (n * 2 ^ shift, (varintEncode n).length) := by
  intro n
  induction n using Nat.strong_induction_on with
  | _ n ih =>
    intro rest shift hs hdvd hn
    by_cases hlt : n < 128
    · rw [varintEncode_lt hlt]
      simp only [varintDecodeLoop, List.cons_append, List.nil_append,
        if_neg (by omega : ¬ shift > 49), if_neg (by omega : ¬ 128 ≤ n),
        List.length_cons, List.length_nil]
      rw [Nat.mod_eq_of_lt hlt]
    · push_neg at hlt
      rw [varintEncode_ge hlt]
      have hstep : n / 128 < n := Nat.div_lt_self (by omega) (by omega)
      have hshift7 : shift ≤ 42 := by
        rcases hdvd with ⟨k, rfl⟩
        have hk : 7 * k < 49 := by
          by_contra hno
          push_neg at hno
          have h7 : 7 * k = 49 := by omega
          rw [h7] at hn
          have : n < 128 := by simpa using hn
          omega
        omega
      have hrec : n / 128 < 2 ^ (56 - (shift + 7)) := by
        have h1 : n < 2 ^ 7 * 2 ^ (56 - (shift + 7)) := by
          rw [← pow_add]
          have h2 : 7 + (56 - (shift + 7)) = 56 - shift := by omega
          rw [h2]; exact hn
        exact Nat.div_lt_of_lt_mul (by linarith [h1])
      have hih := ih (n / 128) hstep rest (shift + 7) (by omega)
        (by rcases hdvd with ⟨k, rfl⟩; exact ⟨k + 1, by ring⟩) hrec
      simp only [varintDecodeLoop, List.cons_append, List.append_eq,
        if_neg (by omega : ¬ shift > 49),
        if_pos (by omega : 128 ≤ n % 128 + 128), List.length_cons]
      rw [hih]
      dsimp only
      have hp : (2 : Nat) ^ (shift + 7) = 2 ^ shift * 128 := by rw [pow_add]; norm_num
      have hmod : (n % 128 + 128) % 128 = n % 128 := by omega
      have hval : (n % 128 + 128) % 128 * 2 ^ shift + n / 128 * 2 ^ (shift + 7)
          = n * 2 ^ shift := by
        rw [hmod, hp]
        calc n % 128 * 2 ^ shift + n / 128 * (2 ^ shift * 128)
            = (n % 128 + 128 * (n / 128)) * 2 ^ shift := by ring
          _ = n * 2 ^ shift := by rw [Nat.mod_add_div]
      rw [hval]

theorem varintDecodeLoop_encode_zero (n : Nat) (rest : List Nat) (hn : n < 2 ^ 56) :
    varintDecodeLoop (varintEncode n ++ rest) 0 = .ok (n, (varintEncode n).length) := by
  have := varintDecodeLoop_encode n rest 0 (by omega) ⟨0, by omega⟩ (by simpa using hn)
  simpa using this

/-- A run consisting only of continuation bytes (high bit set) never decodes:
the loop runs out of input or exceeds the shift limit. -/
theorem varintDecodeLoop_allCont : ∀ (l : List Nat), (∀ b ∈ l, 128 ≤ b) →
    ∀ shift, varintDecodeLoop l shift = .error .rangeError := by
  intro l
  induction l with
  | nil =>
    intro _ shift
    simp only [varintDecodeLoop]
    split <;> rfl
  | cons b rest ih =>
    intro h shift
    simp only [varintDecodeLoop]
    by_cases hs : shift > 49
    · simp [hs]
    · rw [if_neg hs, if_pos (h b (by simp)), ih (fun x hx => h x (by simp [hx])) (shift + 7)]

/-- Every byte of a proper prefix of a varint encoding is a continuation
byte. -/
theorem varintEncode_take_cont : ∀ n k, k < (varintEncode n).length →
    ∀ b ∈ (varintEncode n).take k, 128 ≤ b := by
  intro n
  induction n using Nat.strong_induction_on with
  | _ n ih =>
    intro k hk b hb
    by_cases hlt : n < 128
    · rw [varintEncode_lt hlt] at hk hb
      simp only [List.length_cons, List.length_nil] at hk
      have : k = 0 := by omega
      subst this
      simp at hb
    · push_neg at hlt
      rw [varintEncode_ge hlt] at hk hb
      match k with
      | 0 => simp at hb
      | k + 1 =>
        simp only [List.take_succ_cons, List.mem_cons] at hb
        rcases hb with rfl | hb
        · omega
        · exact ih (n / 128) (Nat.div_lt_self (by omega) (by omega)) k
            (by simpa using hk) b hb

/-- `varint.decode(src, offset)`: decodes starting at `offset`, returning the
value and the new offset (`offset + varint.decode.bytes`). -/
def varintDecodeAt (src : List Nat) (offset : Nat) : Except ParseErr (Nat × Nat) :=
  match varintDecodeLoop (src.drop offset) 0 with
  | .ok (v, c) => .ok (v, offset + c)
  | .error e => .error e

/-- Modelled from the spec: `getStaticArray` of the missing
`Blocks/Serialize.js` helper module reads exactly `size` bytes at `offset`,
failing with *InvalidFormat* on truncated input (spec section 4.1: "Every
parser fails with ... *InvalidFormat* on truncated input"). -/
def getStaticArray (src : List Nat) (size offset : Nat) :
    Except ParseErr (List Nat × Nat) :=
  if offset + size ≤ src.length then .ok ((src.drop offset).take size, offset + size)
  else .error .invalidFormat

/-- Modelled from the spec: `getArray` of the missing `Blocks/Serialize.js`
reads a varint length then that many bytes. -/
def getArray (src : List Nat) (offset : Nat) : Except ParseErr (List Nat × Nat) :=
  match varintDecodeAt src offset with
  | .ok (len, o) => getStaticArray src len o
  | .error e => .error e

/-- `encodeArrayLength`: the varint length prefix of a byte array. -/
def encodeArrayLength (arr : List Nat) : List Nat := varintEncode arr.length

/-- Parser-state invariant: at `offset` into `src`, the bytes still to be
read are exactly `rem`. -/
def ParseInv (src : List Nat) (offset : Nat) (rem : List Nat) : Prop :=
  src.drop offset = rem ∧ offset + rem.length = src.length

theorem parseInv_zero (src : List Nat) : ParseInv src 0 src := by
  constructor <;> simp

theorem parseInv_end {src : List Nat} {offset : Nat}
    (h : ParseInv src offset []) : offset = src.length := by
  rcases h with ⟨_, h2⟩
  simpa using h2

theorem getStaticArray_step {src : List Nat} {offset : Nat} {a rest : List Nat}
    (h : ParseInv src offset (a ++ rest)) {size : Nat} (ha : a.length = size) :
    getStaticArray src size offset = .ok (a, offset + size) ∧
      ParseInv src (offset + size) rest := by
  rcases h with ⟨h1, h2⟩
  simp only [List.length_append] at h2
  have hle : offset + size ≤ src.length := by omega
  refine ⟨?_, ?_, ?_⟩
  · rw [getStaticArray, if_pos hle, h1, ← ha, List.take_left]
  · rw [← List.drop_drop, h1, ← ha, List.drop_left]
  · omega

theorem getStaticArray_last {src : List Nat} {offset : Nat} {a : List Nat}
    (h : ParseInv src offset a) {size : Nat} (ha : a.length = size) :
    getStaticArray src size offset = .ok (a, offset + size) ∧
      ParseInv src (offset + size) ([] : List Nat) :=
  getStaticArray_step (by simpa using h) ha

theorem varintDecodeAt_step {src : List Nat} {offset : Nat} {n : Nat} {rest : List Nat}
    (h : ParseInv src offset (varintEncode n ++ rest)) (hn : n < 2 ^ 56) :
    varintDecodeAt src offset = .ok (n, offset + (varintEncode n).length) ∧
      ParseInv src (offset + (varintEncode n).length) rest := by
  rcases h with ⟨h1, h2⟩
  simp only [List.length_append] at h2
  refine ⟨?_, ?_, ?_⟩
  · rw [varintDecodeAt, h1, varintDecodeLoop_encode_zero n rest hn]
  · rw [← List.drop_drop, h1, List.drop_left]
  · omega

theorem getArray_step {src : List Nat} {offset : Nat} {a rest : List Nat}
    (h : ParseInv src offset (encodeArrayLength a ++ (a ++ rest)))
    (hlen : a.length < 2 ^ 56) :
    getArray src offset =
      .ok (a, offset + (encodeArrayLength a).length + a.length) ∧
      ParseInv src (offset + (encodeArrayLength a).length + a.length) rest := by
  have h' : ParseInv src offset (varintEncode a.length ++ (a ++ rest)) := by
    simpa [encodeArrayLength, List.append_assoc] using h
  obtain ⟨hd, hinv⟩ := varintDecodeAt_step h' hlen
  obtain ⟨hs, hinv2⟩ := getStaticArray_step hinv rfl
  refine ⟨?_, ?_⟩
  · rw [getArray, hd]
    dsimp only
    rw [hs]
    rfl
  · simpa [encodeArrayLength] using hinv2

/-! ### Block natures (`Blocks/payloads.js`, `NATURE` and `NATURE_KIND`) -/

namespace NATURE

def trustchain_creation : Nat := 1
def device_creation_v1 : Nat := 2
def key_publish_to_device : Nat := 3
def device_revocation_v1 : Nat := 4
def device_creation_v2 : Nat := 6
def device_creation_v3 : Nat := 7
def key_publish_to_user : Nat := 8
def device_revocation_v2 : Nat := 9
def user_group_creation : Nat := 10
def key_publish_to_user_group : Nat := 11
def user_group_addition : Nat := 12

end NATURE

namespace NATURE_KIND

def trustchain_creation : Nat := 0
def device_creation : Nat := 1
def device_revocation : Nat := 2
def key_publish_to_device : Nat := 3
def key_publish_to_user : Nat := 4
def user_group_creation : Nat := 5
def key_publish_to_user_group : Nat := 6
def user_group_addition : Nat := 7

end NATURE_KIND

/-- `natureKind`; the JS function throws on an unknown nature, modelled as
`none`. -/
def natureKind (val : Nat) : Option Nat :=
  if val = NATURE.trustchain_creation then some NATURE_KIND.trustchain_creation
  else if val = NATURE.device_creation_v1 then some NATURE_KIND.device_creation
  else if val = NATURE.device_creation_v2 then some NATURE_KIND.device_creation
  else if val = NATURE.device_creation_v3 then some NATURE_KIND.device_creation
  else if val = NATURE.key_publish_to_device then some NATURE_KIND.key_publish_to_device
  else if val = NATURE.key_publish_to_user then some NATURE_KIND.key_publish_to_user
  else if val = NATURE.key_publish_to_user_group then some NATURE_KIND.key_publish_to_user_group
  else if val = NATURE.device_revocation_v1 then some NATURE_KIND.device_revocation
  else if val = NATURE.device_revocation_v2 then some NATURE_KIND.device_revocation
  else if val = NATURE.user_group_creation then some NATURE_KIND.user_group_creation
  else if val = NATURE.user_group_addition then some NATURE_KIND.user_group_addition
  else none

def isTrustchainCreation (nature : Nat) : Bool :=
  natureKind nature == some NATURE_KIND.trustchain_creation

def isDeviceCreation (nature : Nat) : Bool :=
  natureKind nature == some NATURE_KIND.device_creation

def isDeviceRevocation (nature : Nat) : Bool :=
  natureKind nature == some NATURE_KIND.device_revocation

def isKeyPublishToDevice (nature : Nat) : Bool :=
  natureKind nature == some NATURE_KIND.key_publish_to_device

def isKeyPublishToUser (nature : Nat) : Bool :=
  natureKind nature == some NATURE_KIND.key_publish_to_user

def isKeyPublishToUserGroup (nature : Nat) : Bool :=
  natureKind nature == some NATURE_KIND.key_publish_to_user_group

/-! ### Block records (`Blocks/payloads.js`) -/

structure TrustchainCreationRecord where
  public_signature_key : List Nat
deriving DecidableEq, Repr

structure UserPrivateKey where
  recipient : List Nat
  key : List Nat
deriving DecidableEq, Repr

structure UserKeyPair where
  public_encryption_key : List Nat
  encrypted_private_encryption_key : List Nat
deriving DecidableEq, Repr

structure UserKeys where
  public_encryption_key : List Nat
  previous_public_encryption_key : List Nat
  encrypted_previous_encryption_key : List Nat
  private_keys : List UserPrivateKey
deriving DecidableEq, Repr

structure UserDeviceRecord where
  last_reset : List Nat
  ephemeral_public_signature_key : List Nat
  user_id : List Nat
  delegation_signature : List Nat
  public_signature_key : List Nat
  public_encryption_key : List Nat
  user_key_pair : Option UserKeyPair
  is_ghost_device : Bool
  is_server_device : Bool
  revoked : Nat
deriving DecidableEq, Repr

structure KeyPublishRecord where
  recipient : List Nat
  resourceId : List Nat
  key : List Nat
deriving DecidableEq, Repr

structure DeviceRevocationRecord where
  device_id : List Nat
  user_keys : Option UserKeys
deriving DecidableEq, Repr

structure GroupEncryptedKey where
  public_user_encryption_key : List Nat
  encrypted_group_private_encryption_key : List Nat
deriving DecidableEq, Repr

structure UserGroupCreationRecord where
  public_signature_key : List Nat
  public_encryption_key : List Nat
  encrypted_group_private_signature_key : List Nat
  encrypted_group_private_encryption_keys_for_users : List GroupEncryptedKey
  self_signature : List Nat
deriving DecidableEq, Repr

structure UserGroupAdditionRecord where
  group_id : List Nat
  previous_group_block : List Nat
  encrypted_group_private_encryption_keys_for_users : List GroupEncryptedKey
  self_signature_with_current_key : List Nat
deriving DecidableEq, Repr

/-- The `Record` union returned by `unserializePayload`. -/
inductive Rec where
  | trustchainCreation (r : TrustchainCreationRecord)
  | userDevice (r : UserDeviceRecord)
  | keyPublish (r : KeyPublishRecord)
  | deviceRevocation (r : DeviceRevocationRecord)
  | userGroupCreation (r : UserGroupCreationRecord)
  | userGroupAddition (r : UserGroupAdditionRecord)
deriving DecidableEq, Repr

structure Block where
  index : Nat
  trustchain_id : List Nat
  nature : Nat
  payload : List Nat
  author : List Nat
  signature : List Nat
deriving DecidableEq, Repr

/-! ### Block envelope codec (`serializeBlock` / `unserializeBlock`) -/

def currentVersion : Nat := 1
def trustchainIdSize : Nat := HASH_SIZE

/-- `serializeBlock`; the JS assertion throws are modelled as `none`. -/
def serializeBlock (block : Block) : Option (List Nat) :=
  if block.author.length ≠ HASH_SIZE then none
  else if block.signature.length ≠ SIGNATURE_SIZE then none
  else if block.trustchain_id.length ≠ trustchainIdSize then none
  else some (varintEncode currentVersion ++ (varintEncode block.index ++
    (block.trustchain_id ++ (varintEncode block.nature ++
    (encodeArrayLength block.payload ++ (block.payload ++
    (block.author ++ block.signature)))))))

/-- `unserializeBlock`; rejects only a version *greater* than
`currentVersion` with `UpgradeRequiredError`. -/
def unserializeBlock (src : List Nat) : Except ParseErr Block := do
  let (version, o1) ← varintDecodeAt src 0
  if version > currentVersion then throw .upgradeRequired
  let (index, o2) ← varintDecodeAt src o1
  let (trustchain_id, o3) ← getStaticArray src trustchainIdSize o2
  let (nature, o4) ← varintDecodeAt src o3
  let (payload, o5) ← getArray src o4
  let (author, o6) ← getStaticArray src HASH_SIZE o5
  let (signature, _) ← getStaticArray src SIGNATURE_SIZE o6
  pure { index, trustchain_id, nature, payload, author, signature }

theorem take_append_right {P Q : List Nat} {k : Nat} (h : P.length ≤ k) :
    (P ++ Q).take k = P ++ Q.take (k - P.length) := by
  rw [List.take_append_eq_append_take, List.take_of_length_le h]

theorem varintDecodeAt_partial {src : List Nat} {off n j : Nat}
    (h : src.drop off = (varintEncode n).take j) (hj : j < (varintEncode n).length) :
    varintDecodeAt src off = .error .rangeError := by
  rw [varintDecodeAt, h, varintDecodeLoop_allCont _ (varintEncode_take_cont n j hj) 0]

theorem getStaticArray_short {s : List Nat} {z o : Nat}
    (h : s.length < o + z) : getStaticArray s z o = .error .invalidFormat := by
  rw [getStaticArray, if_neg (by omega)]

/-! ### Payload serializers (`Blocks/payloads.js`)

Assertion throws (`Assertion error: invalid ... size`) are modelled as
`none`; `concatArrays` is `++`. -/

def encodeListLength {α : Type} (l : List α) : List Nat := varintEncode l.length

def serializeTrustchainCreation (tc : TrustchainCreationRecord) : Option (List Nat) :=
  if tc.public_signature_key.length ≠ SIGNATURE_PUBLIC_KEY_SIZE then none
  else some tc.public_signature_key

def serializePrivateKey (userKey : UserPrivateKey) : List Nat :=
  userKey.recipient ++ userKey.key

def serializeUserKeyPair (userKeyPair : UserKeyPair) : List Nat :=
  userKeyPair.public_encryption_key ++ userKeyPair.encrypted_private_encryption_key

def serializeUserKeys (userKeys : UserKeys) : List Nat :=
  userKeys.public_encryption_key ++
  (userKeys.previous_public_encryption_key ++
  (userKeys.encrypted_previous_encryption_key ++
  (encodeListLength userKeys.private_keys ++
  (userKeys.private_keys.map serializePrivateKey).flatten)))

/-- The JS `isNullArray`: every byte is zero. -/
def isNullArray (a : List Nat) : Bool := a.all (· = 0)

/-- The common size assertions of the device-creation serializers. -/
def userDeviceCommonSizesOk (u : UserDeviceRecord) : Bool :=
  (u.last_reset == List.replicate HASH_SIZE 0) &&
  (u.ephemeral_public_signature_key.length == SIGNATURE_PUBLIC_KEY_SIZE) &&
  (u.user_id.length == HASH_SIZE) &&
  (u.delegation_signature.length == SIGNATURE_SIZE) &&
  (u.public_signature_key.length == SIGNATURE_PUBLIC_KEY_SIZE) &&
  (u.public_encryption_key.length == ENCRYPTION_PUBLIC_KEY_SIZE)

def serializeUserDeviceV1 (userDevice : UserDeviceRecord) : Option (List Nat) :=
  if ¬ userDeviceCommonSizesOk userDevice then none
  else some (userDevice.ephemeral_public_signature_key ++
    (userDevice.user_id ++
    (userDevice.delegation_signature ++
    (userDevice.public_signature_key ++
    userDevice.public_encryption_key))))

def serializeUserDeviceV3 (userDevice : UserDeviceRecord) : Option (List Nat) :=
  if ¬ userDeviceCommonSizesOk userDevice then none
  else match userDevice.user_key_pair with
  | none => none
  | some ukp =>
    if ukp.public_encryption_key.length ≠ ENCRYPTION_PUBLIC_KEY_SIZE then none
    else if ukp.encrypted_private_encryption_key.length ≠ SEALED_KEY_SIZE then none
    else
      let deviceFlags : Nat :=
        (if userDevice.is_server_device then 1 else 0) * 2 +
        (if userDevice.is_ghost_device then 1 else 0)
      some (userDevice.ephemeral_public_signature_key ++
        (userDevice.user_id ++
        (userDevice.delegation_signature ++
        (userDevice.public_signature_key ++
        (userDevice.public_encryption_key ++
        (serializeUserKeyPair ukp ++ [deviceFlags]))))))

def serializeKeyPublish (keyPublish : KeyPublishRecord) : Option (List Nat) :=
  if keyPublish.recipient.length ≠ HASH_SIZE then none
  else if keyPublish.resourceId.length ≠ MAC_SIZE then none
  else if keyPublish.key.length ≠ SYMMETRIC_KEY_SIZE + XCHACHA_IV_SIZE + MAC_SIZE then none
  else some (keyPublish.recipient ++ (keyPublish.resourceId ++
    (encodeArrayLength keyPublish.key ++ keyPublish.key)))

def serializeKeyPublishToUser (keyPublish : KeyPublishRecord) : Option (List Nat) :=
  if keyPublish.recipient.length ≠ HASH_SIZE then none
  else if keyPublish.resourceId.length ≠ MAC_SIZE then none
  else if keyPublish.key.length ≠ SEALED_KEY_SIZE then none
  else some (keyPublish.recipient ++ (keyPublish.resourceId ++ keyPublish.key))

def serializeKeyPublishToUserGroup (keyPublish : KeyPublishRecord) : Option (List Nat) :=
  if keyPublish.recipient.length ≠ ENCRYPTION_PUBLIC_KEY_SIZE then none
  else if keyPublish.resourceId.length ≠ MAC_SIZE then none
  else if keyPublish.key.length ≠ SEALED_KEY_SIZE then none
  else some (keyPublish.recipient ++ (keyPublish.resourceId ++ keyPublish.key))

def serializeDeviceRevocationV1 (deviceRevocation : DeviceRevocationRecord) : Option (List Nat) :=
  if deviceRevocation.device_id.length ≠ HASH_SIZE then none
  else some deviceRevocation.device_id

def serializeDeviceRevocationV2 (deviceRevocation : DeviceRevocationRecord) : Option (List Nat) :=
  if deviceRevocation.device_id.length ≠ HASH_SIZE then none
  else match deviceRevocation.user_keys with
  | none => none
  | some uk =>
    if uk.public_encryption_key.length ≠ ENCRYPTION_PUBLIC_KEY_SIZE then none
    else if uk.previous_public_encryption_key.length ≠ ENCRYPTION_PUBLIC_KEY_SIZE then none
    else if uk.encrypted_previous_encryption_key.length ≠ SEALED_KEY_SIZE then none
    else if ¬ uk.private_keys.all
      (fun k => k.recipient.length == HASH_SIZE && k.key.length == SEALED_KEY_SIZE) then none
    else some (deviceRevocation.device_id ++ serializeUserKeys uk)

def serializeGroupEncryptedKey (gek : GroupEncryptedKey) : List Nat :=
  gek.public_user_encryption_key ++ gek.encrypted_group_private_encryption_key

def groupEncryptedKeySizesOk (k : GroupEncryptedKey) : Bool :=
  (k.public_user_encryption_key.length == ENCRYPTION_PUBLIC_KEY_SIZE) &&
  (k.encrypted_group_private_encryption_key.length == SEALED_ENCRYPTION_PRIVATE_KEY_SIZE)

def serializeUserGroupCreation (ugc : UserGroupCreationRecord) : Option (List Nat) :=
  if ugc.public_signature_key.length ≠ SIGNATURE_PUBLIC_KEY_SIZE then none
  else if ugc.public_encryption_key.length ≠ ENCRYPTION_PUBLIC_KEY_SIZE then none
  else if ugc.encrypted_group_private_signature_key.length ≠ SEALED_SIGNATURE_PRIVATE_KEY_SIZE then none
  else if ¬ ugc.encrypted_group_private_encryption_keys_for_users.all groupEncryptedKeySizesOk then none
  else if ugc.self_signature.length ≠ SIGNATURE_SIZE then none
  else some (ugc.public_signature_key ++
    (ugc.public_encryption_key ++
    (ugc.encrypted_group_private_signature_key ++
    (encodeListLength ugc.encrypted_group_private_encryption_keys_for_users ++
    ((ugc.encrypted_group_private_encryption_keys_for_users.map serializeGroupEncryptedKey).flatten ++
    ugc.self_signature)))))

def serializeUserGroupAddition (uga : UserGroupAdditionRecord) : Option (List Nat) :=
  if uga.previous_group_block.length ≠ HASH_SIZE then none
  else if ¬ uga.encrypted_group_private_encryption_keys_for_users.all groupEncryptedKeySizesOk then none
  else if uga.self_signature_with_current_key.length ≠ SIGNATURE_SIZE then none
  else some (uga.group_id ++
    (uga.previous_group_block ++
    (encodeListLength uga.encrypted_group_private_encryption_keys_for_users ++
    ((uga.encrypted_group_private_encryption_keys_for_users.map serializeGroupEncryptedKey).flatten ++
    uga.self_signature_with_current_key))))

/-! ### Payload parsers (`Blocks/payloads.js`)

The `unserializeGeneric`-based parsers thread an offset through their field
readers.  `unserializeGeneric` itself lives in the missing
`Blocks/Serialize.js`; modelled from the spec, it additionally checks that
the whole payload was consumed, failing with *InvalidFormat* otherwise
("fails with *InvalidFormat* on truncated input", spec section 4.1). -/

/-- `unserializeList` item loop: reads `n` items threading the offset. -/
def unserializeListAux {α : Type} (item : List Nat → Nat → Except ParseErr (α × Nat)) :
    Nat → List Nat → Nat → Except ParseErr (List α × Nat)
  | 0, _, o => .ok ([], o)
  | n + 1, src, o => do
    let (x, o1) ← item src o
    let (xs, o2) ← unserializeListAux item n src o1
    pure (x :: xs, o2)

/-- `unserializeList`: a varint count followed by that many items. -/
def unserializeList {α : Type} (item : List Nat → Nat → Except ParseErr (α × Nat))
    (src : List Nat) (o : Nat) : Except ParseErr (List α × Nat) := do
  let (n, o1) ← varintDecodeAt src o
  unserializeListAux item n src o1

def unserializeTrustchainCreation (src : List Nat) : Except ParseErr TrustchainCreationRecord := do
  let (value, _) ← getStaticArray src SIGNATURE_PUBLIC_KEY_SIZE 0
  pure { public_signature_key := value }

def unserializePrivateKey (src : List Nat) (offset : Nat) :
    Except ParseErr (UserPrivateKey × Nat) := do
  let (recipient, o1) ← getStaticArray src HASH_SIZE offset
  let (key, o2) ← getStaticArray src SEALED_KEY_SIZE o1
  pure ({ recipient, key }, o2)

def unserializeUserKeyPair (src : List Nat) (offset : Nat) :
    Except ParseErr (UserKeyPair × Nat) := do
  let (pk, o1) ← getStaticArray src ENCRYPTION_PUBLIC_KEY_SIZE offset
  let (sk, o2) ← getStaticArray src SEALED_KEY_SIZE o1
  pure ({ public_encryption_key := pk, encrypted_private_encryption_key := sk }, o2)

def unserializeUserKeysSub (src : List Nat) (offset : Nat) :
    Except ParseErr (UserKeys × Nat) := do
  let (pk, o1) ← getStaticArray src ENCRYPTION_PUBLIC_KEY_SIZE offset
  let (prev, o2) ← getStaticArray src ENCRYPTION_PUBLIC_KEY_SIZE o1
  let (encPrev, o3) ← getStaticArray src SEALED_KEY_SIZE o2
  let (privKeys, o4) ← unserializeList unserializePrivateKey src o3
  pure ({ public_encryption_key := pk, previous_public_encryption_key := prev,
          encrypted_previous_encryption_key := encPrev, private_keys := privKeys }, o4)

def unserializeUserDeviceV1 (src : List Nat) : Except ParseErr UserDeviceRecord := do
  let (eph, o1) ← getStaticArray src SIGNATURE_PUBLIC_KEY_SIZE 0
  let (uid, o2) ← getStaticArray src HASH_SIZE o1
  let (dsig, o3) ← getStaticArray src SIGNATURE_SIZE o2
  let (psig, o4) ← getStaticArray src SIGNATURE_PUBLIC_KEY_SIZE o3
  let (penc, o5) ← getStaticArray src ENCRYPTION_PUBLIC_KEY_SIZE o4
  if o5 = src.length then
    pure { last_reset := List.replicate HASH_SIZE 0, ephemeral_public_signature_key := eph,
           user_id := uid, delegation_signature := dsig, public_signature_key := psig,
           public_encryption_key := penc, user_key_pair := none, is_ghost_device := false,
           is_server_device := false, revoked := MAX_SAFE_INTEGER }
  else throw .invalidFormat

def unserializeUserDeviceV2 (src : List Nat) : Except ParseErr UserDeviceRecord := do
  let (lastReset, o1) ← getStaticArray src HASH_SIZE 0
  let (eph, o2) ← getStaticArray src SIGNATURE_PUBLIC_KEY_SIZE o1
  let (uid, o3) ← getStaticArray src HASH_SIZE o2
  let (dsig, o4) ← getStaticArray src SIGNATURE_SIZE o3
  let (psig, o5) ← getStaticArray src SIGNATURE_PUBLIC_KEY_SIZE o4
  let (penc, o6) ← getStaticArray src ENCRYPTION_PUBLIC_KEY_SIZE o5
  if o6 = src.length then
    pure { last_reset := lastReset, ephemeral_public_signature_key := eph,
           user_id := uid, delegation_signature := dsig, public_signature_key := psig,
           public_encryption_key := penc, user_key_pair := none, is_ghost_device := false,
           is_server_device := false, revoked := MAX_SAFE_INTEGER }
  else throw .invalidFormat

/-- `unserializeUserDeviceV3`; the device-flags byte is read with a plain
index (`d[o]`, i.e. `getD`, no bounds check) exactly as in the source. -/
def unserializeUserDeviceV3 (src : List Nat) : Except ParseErr UserDeviceRecord := do
  let (eph, o1) ← getStaticArray src SIGNATURE_PUBLIC_KEY_SIZE 0
  let (uid, o2) ← getStaticArray src HASH_SIZE o1
  let (dsig, o3) ← getStaticArray src SIGNATURE_SIZE o2
  let (psig, o4) ← getStaticArray src SIGNATURE_PUBLIC_KEY_SIZE o3
  let (penc, o5) ← getStaticArray src ENCRYPTION_PUBLIC_KEY_SIZE o4
  let (ukp, o6) ← unserializeUserKeyPair src o5
  let flags := src.getD o6 0
  if o6 + 1 = src.length then
    pure { last_reset := List.replicate HASH_SIZE 0, ephemeral_public_signature_key := eph,
           user_id := uid, delegation_signature := dsig, public_signature_key := psig,
           public_encryption_key := penc, user_key_pair := some ukp,
           is_ghost_device := flags &&& 1 ≠ 0, is_server_device := flags &&& 2 ≠ 0,
           revoked := MAX_SAFE_INTEGER }
  else throw .invalidFormat

def unserializeKeyPublish (src : List Nat) : Except ParseErr KeyPublishRecord := do
  let (recipient, o1) ← getStaticArray src HASH_SIZE 0
  let (resourceId, o2) ← getStaticArray src MAC_SIZE o1
  let (key, o3) ← getArray src o2
  if o3 ≠ src.length then throw .invalidFormat
  if key.length ≠ SYMMETRIC_KEY_SIZE + XCHACHA_IV_SIZE + MAC_SIZE then throw .invalidFormat
  pure { recipient, resourceId, key }

def unserializeKeyPublishToUser (src : List Nat) : Except ParseErr KeyPublishRecord := do
  let (recipient, o1) ← getStaticArray src HASH_SIZE 0
  let (resourceId, o2) ← getStaticArray src MAC_SIZE o1
  let (key, o3) ← getStaticArray src SEALED_KEY_SIZE o2
  if o3 = src.length then pure { recipient, resourceId, key }
  else throw .invalidFormat

def unserializeKeyPublishToUserGroup (src : List Nat) : Except ParseErr KeyPublishRecord := do
  let (recipient, o1) ← getStaticArray src ENCRYPTION_PUBLIC_KEY_SIZE 0
  let (resourceId, o2) ← getStaticArray src MAC_SIZE o1
  let (key, o3) ← getStaticArray src SEALED_KEY_SIZE o2
  if o3 = src.length then pure { recipient, resourceId, key }
  else throw .invalidFormat

def unserializeDeviceRevocationV1 (src : List Nat) : Except ParseErr DeviceRevocationRecord := do
  let (deviceId, _) ← getStaticArray src HASH_SIZE 0
  pure { device_id := deviceId, user_keys := none }

def unserializeDeviceRevocationV2 (src : List Nat) : Except ParseErr DeviceRevocationRecord := do
  let (deviceId, o1) ← getStaticArray src HASH_SIZE 0
  let (userKeys, o2) ← unserializeUserKeysSub src o1
  if o2 = src.length then pure { device_id := deviceId, user_keys := some userKeys }
  else throw .invalidFormat

def unserializeGroupEncryptedKey (src : List Nat) (offset : Nat) :
    Except ParseErr (GroupEncryptedKey × Nat) := do
  let (pk, o1) ← getStaticArray src ENCRYPTION_PUBLIC_KEY_SIZE offset
  let (ek, o2) ← getStaticArray src SEALED_ENCRYPTION_PRIVATE_KEY_SIZE o1
  pure ({ public_user_encryption_key := pk, encrypted_group_private_encryption_key := ek }, o2)

def unserializeUserGroupCreation (src : List Nat) : Except ParseErr UserGroupCreationRecord := do
  let (psig, o1) ← getStaticArray src SIGNATURE_PUBLIC_KEY_SIZE 0
  let (penc, o2) ← getStaticArray src ENCRYPTION_PUBLIC_KEY_SIZE o1
  let (egpsk, o3) ← getStaticArray src SEALED_SIGNATURE_PRIVATE_KEY_SIZE o2
  let (keys, o4) ← unserializeList unserializeGroupEncryptedKey src o3
  let (selfSig, o5) ← getStaticArray src SIGNATURE_SIZE o4
  if o5 = src.length then
    pure { public_signature_key := psig, public_encryption_key := penc,
           encrypted_group_private_signature_key := egpsk,
           encrypted_group_private_encryption_keys_for_users := keys,
           self_signature := selfSig }
  else throw .invalidFormat

def unserializeUserGroupAddition (src : List Nat) : Except ParseErr UserGroupAdditionRecord := do
  let (gid, o1) ← getStaticArray src HASH_SIZE 0
  let (prev, o2) ← getStaticArray src HASH_SIZE o1
  let (keys, o3) ← unserializeList unserializeGroupEncryptedKey src o2
  let (selfSig, o4) ← getStaticArray src SIGNATURE_SIZE o3
  if o4 = src.length then
    pure { group_id := gid, previous_group_block := prev,
           encrypted_group_private_encryption_keys_for_users := keys,
           self_signature_with_current_key := selfSig }
  else throw .invalidFormat

/-- `unserializePayload`: nature dispatch; the default case throws
`UpgradeRequiredError`. -/
def unserializePayload (block : Block) : Except ParseErr Rec :=
  if block.nature = NATURE.trustchain_creation then
    (unserializeTrustchainCreation block.payload).map .trustchainCreation
  else if block.nature = NATURE.device_creation_v1 then
    (unserializeUserDeviceV1 block.payload).map .userDevice
  else if block.nature = NATURE.device_creation_v2 then
    (unserializeUserDeviceV2 block.payload).map .userDevice
  else if block.nature = NATURE.device_creation_v3 then
    (unserializeUserDeviceV3 block.payload).map .userDevice
  else if block.nature = NATURE.key_publish_to_device then
    (unserializeKeyPublish block.payload).map .keyPublish
  else if block.nature = NATURE.key_publish_to_user then
    (unserializeKeyPublishToUser block.payload).map .keyPublish
  else if block.nature = NATURE.key_publish_to_user_group then
    (unserializeKeyPublishToUserGroup block.payload).map .keyPublish
  else if block.nature = NATURE.device_revocation_v1 then
    (unserializeDeviceRevocationV1 block.payload).map .deviceRevocation
  else if block.nature = NATURE.device_revocation_v2 then
    (unserializeDeviceRevocationV2 block.payload).map .deviceRevocation
  else if block.nature = NATURE.user_group_creation then
    (unserializeUserGroupCreation block.payload).map .userGroupCreation
  else if block.nature = NATURE.user_group_addition then
    (unserializeUserGroupAddition block.payload).map .userGroupAddition
  else .error .upgradeRequired

/-! ### Round-trip lemmas for the block codec -/

/-- A block whose varint-encoded numeric fields are in JavaScript's safe
range.  `serializeBlock`'s own assertions cover the byte-array fields. -/
def wfBlockNumbers (blk : Block) : Prop :=
  blk.index ≤ MAX_SAFE_INTEGER ∧ blk.nature ≤ MAX_SAFE_INTEGER ∧
    blk.payload.length ≤ MAX_SAFE_INTEGER

theorem unserializeBlock_serializeBlock (blk : Block) (s : List Nat)
    (hwf : wfBlockNumbers blk) (hser : serializeBlock blk = some s) :
    unserializeBlock s = .ok blk := by
  obtain ⟨hidx, hnat, hpay⟩ := hwf
  have hmax : MAX_SAFE_INTEGER < 2 ^ 56 := by norm_num [MAX_SAFE_INTEGER]
  unfold serializeBlock at hser
  split_ifs at hser with h1 h2 h3
  rw [Option.some.injEq] at hser
  subst hser
  obtain ⟨hv1, inv1⟩ := varintDecodeAt_step (parseInv_zero _)
    (by norm_num [currentVersion] : currentVersion < 2 ^ 56)
  obtain ⟨hv2, inv2⟩ := varintDecodeAt_step inv1 (by omega : blk.index < 2 ^ 56)
  obtain ⟨hv3, inv3⟩ := getStaticArray_step inv2 (by omega : blk.trustchain_id.length = trustchainIdSize)
  obtain ⟨hv4, inv4⟩ := varintDecodeAt_step inv3 (by omega : blk.nature < 2 ^ 56)
  obtain ⟨hv5, inv5⟩ := getArray_step inv4 (by omega : blk.payload.length < 2 ^ 56)
  obtain ⟨hv6, inv6⟩ := getStaticArray_step inv5 (by omega : blk.author.length = HASH_SIZE)
  obtain ⟨hv7, _⟩ := getStaticArray_last inv6 (by omega : blk.signature.length = SIGNATURE_SIZE)
  simp only [unserializeBlock, hv1, hv2, hv3, hv4, hv5, hv6, hv7,
    bind, Except.bind, pure, Except.pure]
  norm_num [currentVersion]

/-- Truncating a serialized block anywhere makes `unserializeBlock` fail:
with the varint library's `RangeError` when the cut lands inside a varint
field, with `InvalidFormat` when it lands inside a fixed-size or
length-prefixed field. -/
theorem unserializeBlock_truncated (blk : Block) (s : List Nat)
    (hwf : wfBlockNumbers blk) (hser : serializeBlock blk = some s) :
    ∀ k, k < s.length →
      unserializeBlock (s.take k) = .error .rangeError ∨
      unserializeBlock (s.take k) = .error .invalidFormat := by
  obtain ⟨hidx, hnat, hpay⟩ := hwf
  have hmax : MAX_SAFE_INTEGER < 2 ^ 56 := by norm_num [MAX_SAFE_INTEGER]
  have hcv : currentVersion < 2 ^ 56 := by norm_num [currentVersion]
  unfold serializeBlock at hser
  split_ifs at hser with h1 h2 h3
  push_neg at h1 h2 h3
  rw [Option.some.injEq] at hser
  subst hser
  intro k hk
  have hl1 : (varintEncode currentVersion).length = 1 := by
    rw [varintEncode_lt (by norm_num [currentVersion])]
    rfl
  simp only [List.length_append, hl1] at hk
  have h1' : blk.author.length = 32 := by rw [h1]; rfl
  have h2' : blk.signature.length = 64 := by rw [h2]; rfl
  have h3' : blk.trustchain_id.length = 32 := by rw [h3]; rfl
  rw [h1', h2', h3'] at hk
  rcases Nat.lt_or_ge k 1 with hc1 | hc1
  · -- cut before the version varint: empty input, RangeError from varint
    left
    have hk0 : k = 0 := by omega
    subst hk0
    rfl
  rcases Nat.lt_or_ge k (1 + (varintEncode blk.index).length) with hc2 | hc2
  · -- cut inside the index varint: RangeError
    left
    have htake : (varintEncode currentVersion ++ (varintEncode blk.index ++
        (blk.trustchain_id ++ (varintEncode blk.nature ++ (encodeArrayLength blk.payload ++
        (blk.payload ++ (blk.author ++ blk.signature))))))).take k =
        varintEncode currentVersion ++ (varintEncode blk.index).take (k - 1) := by
      rw [take_append_right (by rw [hl1]; omega), hl1,
        List.take_append_of_le_length (by omega)]
    rw [htake]
    obtain ⟨hd1, inv1⟩ := varintDecodeAt_step (parseInv_zero
      (varintEncode currentVersion ++ (varintEncode blk.index).take (k - 1))) hcv
    have hpart := varintDecodeAt_partial inv1.1 (by omega : k - 1 < (varintEncode blk.index).length)
    simp only [unserializeBlock, hd1, hpart, bind, Except.bind]
    norm_num [currentVersion]
    rfl
  rcases Nat.lt_or_ge k (1 + ((varintEncode blk.index).length + 32)) with hc3 | hc3
  · -- cut inside the trustchain id: InvalidFormat
    right
    have htake : (varintEncode currentVersion ++ (varintEncode blk.index ++
        (blk.trustchain_id ++ (varintEncode blk.nature ++ (encodeArrayLength blk.payload ++
        (blk.payload ++ (blk.author ++ blk.signature))))))).take k =
        varintEncode currentVersion ++ (varintEncode blk.index ++
          blk.trustchain_id.take (k - 1 - (varintEncode blk.index).length)) := by
      rw [take_append_right (by rw [hl1]; omega), hl1,
        take_append_right (by omega),
        List.take_append_of_le_length (by rw [h3']; omega)]
    rw [htake]
    obtain ⟨hd1, inv1⟩ := varintDecodeAt_step (parseInv_zero
      (varintEncode currentVersion ++ (varintEncode blk.index ++
        blk.trustchain_id.take (k - 1 - (varintEncode blk.index).length)))) hcv
    obtain ⟨hd2, inv2⟩ := varintDecodeAt_step inv1 (by omega : blk.index < 2 ^ 56)
    obtain ⟨_, hlen2⟩ := inv2
    rw [List.length_take] at hlen2
    have hshort := getStaticArray_short (z := trustchainIdSize)
      (o := 0 + (varintEncode currentVersion).length + (varintEncode blk.index).length)
      (s := varintEncode currentVersion ++ (varintEncode blk.index ++
        blk.trustchain_id.take (k - 1 - (varintEncode blk.index).length)))
      (by rw [show trustchainIdSize = 32 from rfl]; rw [h3'] at hlen2; rw [hl1] at hlen2 ⊢; omega)
    simp only [unserializeBlock, hd1, hd2, hshort, bind, Except.bind]
    norm_num [currentVersion]
    rfl
  rcases Nat.lt_or_ge k (1 + ((varintEncode blk.index).length + (32 +
      (varintEncode blk.nature).length))) with hc4 | hc4
  · -- cut inside the nature varint: RangeError
    left
    have htake : (varintEncode currentVersion ++ (varintEncode blk.index ++
        (blk.trustchain_id ++ (varintEncode blk.nature ++ (encodeArrayLength blk.payload ++
        (blk.payload ++ (blk.author ++ blk.signature))))))).take k =
        varintEncode currentVersion ++ (varintEncode blk.index ++
          (blk.trustchain_id ++ (varintEncode blk.nature).take
            (k - 1 - (varintEncode blk.index).length - 32))) := by
      rw [take_append_right (by rw [hl1]; omega), hl1,
        take_append_right (by omega),
        take_append_right (by rw [h3']; omega), h3',
        List.take_append_of_le_length (by omega)]
    rw [htake]
    obtain ⟨hd1, inv1⟩ := varintDecodeAt_step (parseInv_zero
      (varintEncode currentVersion ++ (varintEncode blk.index ++
        (blk.trustchain_id ++ (varintEncode blk.nature).take
          (k - 1 - (varintEncode blk.index).length - 32))))) hcv
    obtain ⟨hd2, inv2⟩ := varintDecodeAt_step inv1 (by omega : blk.index < 2 ^ 56)
    obtain ⟨hd3, inv3⟩ := getStaticArray_step inv2 h3
    have hpart := varintDecodeAt_partial inv3.1
      (by omega : k - 1 - (varintEncode blk.index).length - 32 < (varintEncode blk.nature).length)
    simp only [unserializeBlock, hd1, hd2, hd3, hpart, bind, Except.bind]
    norm_num [currentVersion]
    rfl
  rcases Nat.lt_or_ge k (1 + ((varintEncode blk.index).length + (32 +
      ((varintEncode blk.nature).length + (encodeArrayLength blk.payload).length)))) with hc5 | hc5
  · -- cut inside the payload length varint: RangeError
    left
    have htake : (varintEncode currentVersion ++ (varintEncode blk.index ++
        (blk.trustchain_id ++ (varintEncode blk.nature ++ (encodeArrayLength blk.payload ++
        (blk.payload ++ (blk.author ++ blk.signature))))))).take k =
        varintEncode currentVersion ++ (varintEncode blk.index ++
          (blk.trustchain_id ++ (varintEncode blk.nature ++
            (encodeArrayLength blk.payload).take
              (k - 1 - (varintEncode blk.index).length - 32 -
                (varintEncode blk.nature).length)))) := by
      rw [take_append_right (by rw [hl1]; omega), hl1,
        take_append_right (by omega),
        take_append_right (by rw [h3']; omega), h3',
        take_append_right (by omega),
        List.take_append_of_le_length (by omega)]
    rw [htake]
    obtain ⟨hd1, inv1⟩ := varintDecodeAt_step (parseInv_zero
      (varintEncode currentVersion ++ (varintEncode blk.index ++
        (blk.trustchain_id ++ (varintEncode blk.nature ++
          (encodeArrayLength blk.payload).take
            (k - 1 - (varintEncode blk.index).length - 32 -
              (varintEncode blk.nature).length)))))) hcv
    obtain ⟨hd2, inv2⟩ := varintDecodeAt_step inv1 (by omega : blk.index < 2 ^ 56)
    obtain ⟨hd3, inv3⟩ := getStaticArray_step inv2 h3
    obtain ⟨hd4, inv4⟩ := varintDecodeAt_step inv3 (by omega : blk.nature < 2 ^ 56)
    have hpart := varintDecodeAt_partial
      (n := blk.payload.length)
      (j := k - 1 - (varintEncode blk.index).length - 32 - (varintEncode blk.nature).length)
      inv4.1
      (by
        have henc : (encodeArrayLength blk.payload).length
            = (varintEncode blk.payload.length).length := rfl
        omega)
    simp only [unserializeBlock, hd1, hd2, hd3, hd4, getArray, hpart, bind, Except.bind]
    norm_num [currentVersion]
    rfl
  rcases Nat.lt_or_ge k (1 + ((varintEncode blk.index).length + (32 +
      ((varintEncode blk.nature).length + ((encodeArrayLength blk.payload).length +
        blk.payload.length))))) with hc6 | hc6
  · -- cut inside the payload bytes: InvalidFormat
    right
    have htake : (varintEncode currentVersion ++ (varintEncode blk.index ++
        (blk.trustchain_id ++ (varintEncode blk.nature ++ (encodeArrayLength blk.payload ++
        (blk.payload ++ (blk.author ++ blk.signature))))))).take k =
        varintEncode currentVersion ++ (varintEncode blk.index ++
          (blk.trustchain_id ++ (varintEncode blk.nature ++
            (encodeArrayLength blk.payload ++
              blk.payload.take
                (k - 1 - (varintEncode blk.index).length - 32 -
                  (varintEncode blk.nature).length -
                  (encodeArrayLength blk.payload).length))))) := by
      rw [take_append_right (by rw [hl1]; omega), hl1,
        take_append_right (by omega),
        take_append_right (by rw [h3']; omega), h3',
        take_append_right (by omega),
        take_append_right (by omega),
        List.take_append_of_le_length (by omega)]
    rw [htake]
    obtain ⟨hd1, inv1⟩ := varintDecodeAt_step (parseInv_zero
      (varintEncode currentVersion ++ (varintEncode blk.index ++
        (blk.trustchain_id ++ (varintEncode blk.nature ++
          (encodeArrayLength blk.payload ++
            blk.payload.take
              (k - 1 - (varintEncode blk.index).length - 32 -
                (varintEncode blk.nature).length -
                (encodeArrayLength blk.payload).length))))))) hcv
    obtain ⟨hd2, inv2⟩ := varintDecodeAt_step inv1 (by omega : blk.index < 2 ^ 56)
    obtain ⟨hd3, inv3⟩ := getStaticArray_step inv2 h3
    obtain ⟨hd4, inv4⟩ := varintDecodeAt_step inv3 (by omega : blk.nature < 2 ^ 56)
    obtain ⟨hd5, inv5⟩ := varintDecodeAt_step (n := blk.payload.length)
      inv4 (by omega : blk.payload.length < 2 ^ 56)
    obtain ⟨_, hlen5⟩ := inv5
    rw [List.length_take] at hlen5
    have henc : (encodeArrayLength blk.payload).length = (varintEncode blk.payload.length).length := rfl
    have hshort := getStaticArray_short (z := blk.payload.length)
      (o := 0 + (varintEncode currentVersion).length + (varintEncode blk.index).length +
        trustchainIdSize + (varintEncode blk.nature).length +
        (varintEncode blk.payload.length).length)
      (s := varintEncode currentVersion ++ (varintEncode blk.index ++
        (blk.trustchain_id ++ (varintEncode blk.nature ++
          (encodeArrayLength blk.payload ++
            blk.payload.take
              (k - 1 - (varintEncode blk.index).length - 32 -
                (varintEncode blk.nature).length -
                (encodeArrayLength blk.payload).length))))))
      (by
        rw [hl1] at hlen5 ⊢
        rw [show trustchainIdSize = 32 from rfl] at hlen5 ⊢
        omega)
    simp only [unserializeBlock, hd1, hd2, hd3, hd4, getArray, hd5, hshort, bind, Except.bind]
    norm_num [currentVersion]
    rfl
  rcases Nat.lt_or_ge k (1 + ((varintEncode blk.index).length + (32 +
      ((varintEncode blk.nature).length + ((encodeArrayLength blk.payload).length +
        (blk.payload.length + 32)))))) with hc7 | hc7
  · -- cut inside the author: InvalidFormat
    right
    have htake : (varintEncode currentVersion ++ (varintEncode blk.index ++
        (blk.trustchain_id ++ (varintEncode blk.nature ++ (encodeArrayLength blk.payload ++
        (blk.payload ++ (blk.author ++ blk.signature))))))).take k =
        varintEncode currentVersion ++ (varintEncode blk.index ++
          (blk.trustchain_id ++ (varintEncode blk.nature ++
            (encodeArrayLength blk.payload ++ (blk.payload ++
              blk.author.take
                (k - 1 - (varintEncode blk.index).length - 32 -
                  (varintEncode blk.nature).length -
                  (encodeArrayLength blk.payload).length - blk.payload.length)))))) := by
      rw [take_append_right (by rw [hl1]; omega), hl1,
        take_append_right (by omega),
        take_append_right (by rw [h3']; omega), h3',
        take_append_right (by omega),
        take_append_right (by omega),
        take_append_right (by omega),
        List.take_append_of_le_length (by rw [h1']; omega)]
    rw [htake]
    obtain ⟨hd1, inv1⟩ := varintDecodeAt_step (parseInv_zero
      (varintEncode currentVersion ++ (varintEncode blk.index ++
        (blk.trustchain_id ++ (varintEncode blk.nature ++
          (encodeArrayLength blk.payload ++ (blk.payload ++
            blk.author.take
              (k - 1 - (varintEncode blk.index).length - 32 -
                (varintEncode blk.nature).length -
                (encodeArrayLength blk.payload).length - blk.payload.length)))))))) hcv
    obtain ⟨hd2, inv2⟩ := varintDecodeAt_step inv1 (by omega : blk.index < 2 ^ 56)
    obtain ⟨hd3, inv3⟩ := getStaticArray_step inv2 h3
    obtain ⟨hd4, inv4⟩ := varintDecodeAt_step inv3 (by omega : blk.nature < 2 ^ 56)
    obtain ⟨hd5, inv5⟩ := getArray_step inv4 (by omega : blk.payload.length < 2 ^ 56)
    obtain ⟨_, hlen5⟩ := inv5
    rw [List.length_take] at hlen5
    have hshort := getStaticArray_short (z := HASH_SIZE)
      (o := 0 + (varintEncode currentVersion).length + (varintEncode blk.index).length +
        trustchainIdSize + (varintEncode blk.nature).length +
        (encodeArrayLength blk.payload).length + blk.payload.length)
      (s := varintEncode currentVersion ++ (varintEncode blk.index ++
        (blk.trustchain_id ++ (varintEncode blk.nature ++
          (encodeArrayLength blk.payload ++ (blk.payload ++
            blk.author.take
              (k - 1 - (varintEncode blk.index).length - 32 -
                (varintEncode blk.nature).length -
                (encodeArrayLength blk.payload).length - blk.payload.length)))))))
      (by
        rw [show HASH_SIZE = 32 from rfl]
        rw [hl1] at hlen5 ⊢
        rw [show trustchainIdSize = 32 from rfl] at hlen5 ⊢
        rw [h1'] at hlen5
        omega)
    simp only [unserializeBlock, hd1, hd2, hd3, hd4, hd5, hshort, bind, Except.bind]
    norm_num [currentVersion]
    rfl
  · -- cut inside the signature: InvalidFormat
    right
    have htake : (varintEncode currentVersion ++ (varintEncode blk.index ++
        (blk.trustchain_id ++ (varintEncode blk.nature ++ (encodeArrayLength blk.payload ++
        (blk.payload ++ (blk.author ++ blk.signature))))))).take k =
        varintEncode currentVersion ++ (varintEncode blk.index ++
          (blk.trustchain_id ++ (varintEncode blk.nature ++
            (encodeArrayLength blk.payload ++ (blk.payload ++ (blk.author ++
              blk.signature.take
                (k - 1 - (varintEncode blk.index).length - 32 -
                  (varintEncode blk.nature).length -
                  (encodeArrayLength blk.payload).length - blk.payload.length - 32))))))) := by
      rw [take_append_right (by rw [hl1]; omega), hl1,
        take_append_right (by omega),
        take_append_right (by rw [h3']; omega), h3',
        take_append_right (by omega),
        take_append_right (by omega),
        take_append_right (by omega),
        take_append_right (by rw [h1']; omega), h1']
    rw [htake]
    obtain ⟨hd1, inv1⟩ := varintDecodeAt_step (parseInv_zero
      (varintEncode currentVersion ++ (varintEncode blk.index ++
        (blk.trustchain_id ++ (varintEncode blk.nature ++
          (encodeArrayLength blk.payload ++ (blk.payload ++ (blk.author ++
            blk.signature.take
              (k - 1 - (varintEncode blk.index).length - 32 -
                (varintEncode blk.nature).length -
                (encodeArrayLength blk.payload).length - blk.payload.length - 32))))))))) hcv
    obtain ⟨hd2, inv2⟩ := varintDecodeAt_step inv1 (by omega : blk.index < 2 ^ 56)
    obtain ⟨hd3, inv3⟩ := getStaticArray_step inv2 h3
    obtain ⟨hd4, inv4⟩ := varintDecodeAt_step inv3 (by omega : blk.nature < 2 ^ 56)
    obtain ⟨hd5, inv5⟩ := getArray_step inv4 (by omega : blk.payload.length < 2 ^ 56)
    obtain ⟨hd6, inv6⟩ := getStaticArray_step inv5 h1
    obtain ⟨_, hlen6⟩ := inv6
    rw [List.length_take] at hlen6
    have hshort := getStaticArray_short (z := SIGNATURE_SIZE)
      (o := 0 + (varintEncode currentVersion).length + (varintEncode blk.index).length +
        trustchainIdSize + (varintEncode blk.nature).length +
        (encodeArrayLength blk.payload).length + blk.payload.length + HASH_SIZE)
      (s := varintEncode currentVersion ++ (varintEncode blk.index ++
        (blk.trustchain_id ++ (varintEncode blk.nature ++
          (encodeArrayLength blk.payload ++ (blk.payload ++ (blk.author ++
            blk.signature.take
              (k - 1 - (varintEncode blk.index).length - 32 -
                (varintEncode blk.nature).length -
                (encodeArrayLength blk.payload).length - blk.payload.length - 32))))))))
      (by
        rw [show SIGNATURE_SIZE = 64 from rfl]
        rw [show HASH_SIZE = 32 from rfl]
        rw [hl1] at hlen6 ⊢
        rw [show trustchainIdSize = 32 from rfl] at hlen6 ⊢
        rw [h2'] at hlen6
        omega)
    simp only [unserializeBlock, hd1, hd2, hd3, hd4, hd5, hd6, hshort, bind, Except.bind]
    norm_num [currentVersion]
    rfl

theorem unserializeBlock_version_gt (src : List Nat) (v c : Nat)
    (hdec : varintDecodeAt src 0 = .ok (v, c)) (hv : currentVersion < v) :
    unserializeBlock src = .error .upgradeRequired := by
  simp only [unserializeBlock, hdec, bind, Except.bind]
  rw [if_pos hv]

set_option maxHeartbeats 1600000 in
theorem unserializePayload_unknown_nature (blk : Block)
    (h : natureKind blk.nature = none) : unserializePayload blk = .error .upgradeRequired := by
  unfold natureKind at h
  split_ifs at h with e1 e2 e3 e4 e5 e6 e7 e8 e9 e10 e11
  unfold unserializePayload
  rw [if_neg e1, if_neg e2, if_neg e3, if_neg e4, if_neg e5, if_neg e6, if_neg e7,
    if_neg e8, if_neg e9, if_neg e10, if_neg e11]

/-- Generic round-trip for `unserializeListAux` over the concatenated
serializations of the items. -/
theorem unserializeListAux_ser {α : Type} {item : List Nat → Nat → Except ParseErr (α × Nat)}
    {ser : α → List Nat} :
    ∀ (l : List α) {src : List Nat} {offset : Nat} {rest : List Nat},
    (∀ x ∈ l, ∀ off rem, ParseInv src off (ser x ++ rem) →
      item src off = .ok (x, off + (ser x).length) ∧ ParseInv src (off + (ser x).length) rem) →
    ParseInv src offset ((l.map ser).flatten ++ rest) →
    unserializeListAux item l.length src offset =
      .ok (l, offset + ((l.map ser).flatten).length) ∧
      ParseInv src (offset + ((l.map ser).flatten).length) rest := by
  intro l
  induction l with
  | nil =>
    intro src offset rest _ hinv
    simp only [List.map_nil, List.flatten_nil, List.length_nil, List.nil_append,
      List.length, Nat.add_zero] at hinv ⊢
    exact ⟨rfl, hinv⟩
  | cons x xs ih =>
    intro src offset rest hitem hinv
    have hinv' : ParseInv src offset (ser x ++ ((xs.map ser).flatten ++ rest)) := by
      simpa [List.append_assoc] using hinv
    obtain ⟨hx, hinvx⟩ := hitem x (by simp) offset ((xs.map ser).flatten ++ rest) hinv'
    obtain ⟨hxs, hinvxs⟩ := ih (fun y hy => hitem y (by simp [hy])) hinvx
    constructor
    · simp only [List.length_cons, unserializeListAux, hx, bind, Except.bind, hxs,
        pure, Except.pure]
      simp [List.flatten_cons, Nat.add_assoc]
    · simpa [List.flatten_cons, Nat.add_assoc] using hinvxs

/-- Generic round-trip for `unserializeList`: count prefix plus items. -/
theorem unserializeList_ser {α : Type} {item : List Nat → Nat → Except ParseErr (α × Nat)}
    {ser : α → List Nat} (l : List α) {src : List Nat} {offset : Nat} {rest : List Nat}
    (hitem : ∀ x ∈ l, ∀ off rem, ParseInv src off (ser x ++ rem) →
      item src off = .ok (x, off + (ser x).length) ∧ ParseInv src (off + (ser x).length) rem)
    (hinv : ParseInv src offset
      (encodeListLength l ++ ((l.map ser).flatten ++ rest)))
    (hcount : l.length < 2 ^ 56) :
    unserializeList item src offset =
      .ok (l, offset + (encodeListLength l).length + ((l.map ser).flatten).length) ∧
      ParseInv src (offset + (encodeListLength l).length + ((l.map ser).flatten).length) rest := by
  have h' : ParseInv src offset (varintEncode l.length ++ ((l.map ser).flatten ++ rest)) := by
    simpa [encodeListLength] using hinv
  obtain ⟨hd, hinv1⟩ := varintDecodeAt_step h' hcount
  obtain ⟨ha, hinv2⟩ := unserializeListAux_ser l hitem hinv1
  constructor
  · simp only [unserializeList, hd, bind, Except.bind, ha, encodeListLength]
  · simpa [encodeListLength] using hinv2

/-- Item step for `unserializePrivateKey`. -/
theorem unserializePrivateKey_step {k : UserPrivateKey}
    (hr : k.recipient.length = HASH_SIZE) (hk : k.key.length = SEALED_KEY_SIZE)
    {src : List Nat} {off : Nat} {rem : List Nat}
    (h : ParseInv src off (serializePrivateKey k ++ rem)) :
    unserializePrivateKey src off = .ok (k, off + (serializePrivateKey k).length) ∧
      ParseInv src (off + (serializePrivateKey k).length) rem := by
  have h' : ParseInv src off (k.recipient ++ (k.key ++ rem)) := by
    simpa [serializePrivateKey, List.append_assoc] using h
  obtain ⟨h1, hinv1⟩ := getStaticArray_step h' hr
  obtain ⟨h2, hinv2⟩ := getStaticArray_step hinv1 hk
  constructor
  · simp only [unserializePrivateKey, h1, bind, Except.bind, h2, pure, Except.pure,
      serializePrivateKey, List.length_append]
    rw [← hr, ← hk]
    simp [Nat.add_assoc]
  · simpa [serializePrivateKey, List.length_append, ← hr, ← hk, Nat.add_assoc] using hinv2

/-- Item step for `unserializeUserKeyPair`. -/
theorem unserializeUserKeyPair_step {k : UserKeyPair}
    (hp : k.public_encryption_key.length = ENCRYPTION_PUBLIC_KEY_SIZE)
    (hs : k.encrypted_private_encryption_key.length = SEALED_KEY_SIZE)
    {src : List Nat} {off : Nat} {rem : List Nat}
    (h : ParseInv src off (serializeUserKeyPair k ++ rem)) :
    unserializeUserKeyPair src off = .ok (k, off + (serializeUserKeyPair k).length) ∧
      ParseInv src (off + (serializeUserKeyPair k).length) rem := by
  have h' : ParseInv src off (k.public_encryption_key ++ (k.encrypted_private_encryption_key ++ rem)) := by
    simpa [serializeUserKeyPair, List.append_assoc] using h
  obtain ⟨h1, hinv1⟩ := getStaticArray_step h' hp
  obtain ⟨h2, hinv2⟩ := getStaticArray_step hinv1 hs
  constructor
  · simp only [unserializeUserKeyPair, h1, bind, Except.bind, h2, pure, Except.pure,
      serializeUserKeyPair, List.length_append]
    rw [← hp, ← hs]
    simp [Nat.add_assoc]
  · simpa [serializeUserKeyPair, List.length_append, ← hp, ← hs, Nat.add_assoc] using hinv2

/-- Item step for `unserializeGroupEncryptedKey`. -/
theorem unserializeGroupEncryptedKey_step {k : GroupEncryptedKey}
    (hok : groupEncryptedKeySizesOk k = true)
    {src : List Nat} {off : Nat} {rem : List Nat}
    (h : ParseInv src off (serializeGroupEncryptedKey k ++ rem)) :
    unserializeGroupEncryptedKey src off = .ok (k, off + (serializeGroupEncryptedKey k).length) ∧
      ParseInv src (off + (serializeGroupEncryptedKey k).length) rem := by
  simp only [groupEncryptedKeySizesOk, Bool.and_eq_true, beq_iff_eq] at hok
  obtain ⟨hp, hs⟩ := hok
  have h' : ParseInv src off
      (k.public_user_encryption_key ++ (k.encrypted_group_private_encryption_key ++ rem)) := by
    simpa [serializeGroupEncryptedKey, List.append_assoc] using h
  obtain ⟨h1, hinv1⟩ := getStaticArray_step h' hp
  obtain ⟨h2, hinv2⟩ := getStaticArray_step hinv1 hs
  constructor
  · simp only [unserializeGroupEncryptedKey, h1, bind, Except.bind, h2, pure, Except.pure,
      serializeGroupEncryptedKey, List.length_append]
    rw [← hp, ← hs]
    simp [Nat.add_assoc]
  · simpa [serializeGroupEncryptedKey, List.length_append, ← hp, ← hs, Nat.add_assoc] using hinv2

/-! ### Per-nature payload round trips -/

theorem unserializeTrustchainCreation_ser (r : TrustchainCreationRecord) (s : List Nat)
    (hser : serializeTrustchainCreation r = some s) :
    unserializeTrustchainCreation s = .ok r := by
  unfold serializeTrustchainCreation at hser
  split_ifs at hser with h1
  rw [Option.some.injEq] at hser
  subst hser
  push_neg at h1
  obtain ⟨hg, _⟩ := getStaticArray_last (parseInv_zero r.public_signature_key) h1
  simp only [unserializeTrustchainCreation, hg, bind, Except.bind, pure, Except.pure]

theorem unserializeKeyPublish_ser (r : KeyPublishRecord) (s : List Nat)
    (hser : serializeKeyPublish r = some s) :
    unserializeKeyPublish s = .ok r := by
  unfold serializeKeyPublish at hser
  split_ifs at hser with h1 h2 h3
  rw [Option.some.injEq] at hser
  subst hser
  push_neg at h1 h2 h3
  have hinv0 := parseInv_zero (r.recipient ++ (r.resourceId ++ (encodeArrayLength r.key ++ r.key)))
  obtain ⟨hg1, hinv1⟩ := getStaticArray_step hinv0 h1
  obtain ⟨hg2, hinv2⟩ := getStaticArray_step hinv1 h2
  have hinv2' : ParseInv (r.recipient ++ (r.resourceId ++ (encodeArrayLength r.key ++ r.key)))
      (0 + HASH_SIZE + MAC_SIZE) (encodeArrayLength r.key ++ (r.key ++ [])) := by
    simpa using hinv2
  obtain ⟨hg3, hinv3⟩ := getArray_step hinv2'
    (by rw [h3]; norm_num [SYMMETRIC_KEY_SIZE, XCHACHA_IV_SIZE, MAC_SIZE])
  have hend := parseInv_end hinv3
  simp only [unserializeKeyPublish, hg1, hg2, hg3, bind, Except.bind]
  rw [if_neg (not_not_intro hend), if_neg (not_not_intro h3)]
  rfl

theorem unserializeKeyPublishToUser_ser (r : KeyPublishRecord) (s : List Nat)
    (hser : serializeKeyPublishToUser r = some s) :
    unserializeKeyPublishToUser s = .ok r := by
  unfold serializeKeyPublishToUser at hser
  split_ifs at hser with h1 h2 h3
  rw [Option.some.injEq] at hser
  subst hser
  push_neg at h1 h2 h3
  obtain ⟨hg1, hinv1⟩ := getStaticArray_step (parseInv_zero _) h1
  obtain ⟨hg2, hinv2⟩ := getStaticArray_step hinv1 h2
  obtain ⟨hg3, hinv3⟩ := getStaticArray_last hinv2 h3
  have hend := parseInv_end hinv3
  simp only [unserializeKeyPublishToUser, hg1, hg2, hg3, bind, Except.bind, pure, Except.pure,
    hend]
  simp

theorem unserializeKeyPublishToUserGroup_ser (r : KeyPublishRecord) (s : List Nat)
    (hser : serializeKeyPublishToUserGroup r = some s) :
    unserializeKeyPublishToUserGroup s = .ok r := by
  unfold serializeKeyPublishToUserGroup at hser
  split_ifs at hser with h1 h2 h3
  rw [Option.some.injEq] at hser
  subst hser
  push_neg at h1 h2 h3
  obtain ⟨hg1, hinv1⟩ := getStaticArray_step (parseInv_zero _) h1
  obtain ⟨hg2, hinv2⟩ := getStaticArray_step hinv1 h2
  obtain ⟨hg3, hinv3⟩ := getStaticArray_last hinv2 h3
  have hend := parseInv_end hinv3
  simp only [unserializeKeyPublishToUserGroup, hg1, hg2, hg3, bind, Except.bind,
    pure, Except.pure, hend]
  simp

theorem unserializeUserGroupCreation_ser (r : UserGroupCreationRecord) (s : List Nat)
    (hser : serializeUserGroupCreation r = some s)
    (hcount : r.encrypted_group_private_encryption_keys_for_users.length < 2 ^ 56) :
    unserializeUserGroupCreation s = .ok r := by
  unfold serializeUserGroupCreation at hser
  split_ifs at hser with h1 h2 h3 h4 h5
  push_neg at h1 h2 h3 h5
  rw [Option.some.injEq] at hser
  subst hser
  have hkeys : ∀ k ∈ r.encrypted_group_private_encryption_keys_for_users,
      groupEncryptedKeySizesOk k = true := List.all_eq_true.mp h4
  have hinv0 := parseInv_zero (r.public_signature_key ++ (r.public_encryption_key ++
    (r.encrypted_group_private_signature_key ++
    (encodeListLength r.encrypted_group_private_encryption_keys_for_users ++
    ((r.encrypted_group_private_encryption_keys_for_users.map serializeGroupEncryptedKey).flatten ++
    r.self_signature)))))
  obtain ⟨hg1, hinv1⟩ := getStaticArray_step hinv0 h1
  obtain ⟨hg2, hinv2⟩ := getStaticArray_step hinv1 h2
  obtain ⟨hg3, hinv3⟩ := getStaticArray_step hinv2 h3
  obtain ⟨hg4, hinv4⟩ := unserializeList_ser r.encrypted_group_private_encryption_keys_for_users
    (fun x hx off' rem' hinv' => unserializeGroupEncryptedKey_step (hkeys x hx) hinv')
    hinv3 hcount
  obtain ⟨hg5, hinv5⟩ := getStaticArray_last hinv4 h5
  have hend := parseInv_end hinv5
  simp only [unserializeUserGroupCreation, hg1, hg2, hg3, hg4, hg5, bind, Except.bind]
  rw [if_pos hend]
  rfl

theorem unserializeUserGroupAddition_ser (r : UserGroupAdditionRecord) (s : List Nat)
    (hser : serializeUserGroupAddition r = some s)
    (hgid : r.group_id.length = HASH_SIZE)
    (hcount : r.encrypted_group_private_encryption_keys_for_users.length < 2 ^ 56) :
    unserializeUserGroupAddition s = .ok r := by
  unfold serializeUserGroupAddition at hser
  split_ifs at hser with h1 h2 h3
  push_neg at h1 h3
  rw [Option.some.injEq] at hser
  subst hser
  have hkeys : ∀ k ∈ r.encrypted_group_private_encryption_keys_for_users,
      groupEncryptedKeySizesOk k = true := List.all_eq_true.mp h2
  have hinv0 := parseInv_zero (r.group_id ++ (r.previous_group_block ++
    (encodeListLength r.encrypted_group_private_encryption_keys_for_users ++
    ((r.encrypted_group_private_encryption_keys_for_users.map serializeGroupEncryptedKey).flatten ++
    r.self_signature_with_current_key))))
  obtain ⟨hg1, hinv1⟩ := getStaticArray_step hinv0 hgid
  obtain ⟨hg2, hinv2⟩ := getStaticArray_step hinv1 h1
  obtain ⟨hg3, hinv3⟩ := unserializeList_ser r.encrypted_group_private_encryption_keys_for_users
    (fun x hx off' rem' hinv' => unserializeGroupEncryptedKey_step (hkeys x hx) hinv')
    hinv2 hcount
  obtain ⟨hg4, hinv4⟩ := getStaticArray_last hinv3 h3
  have hend := parseInv_end hinv4
  simp only [unserializeUserGroupAddition, hg1, hg2, hg3, hg4, bind, Except.bind]
  rw [if_pos hend]
  rfl

theorem parseInv_getD {src : List Nat} {off b : Nat} {rest : List Nat}
    (h : ParseInv src off (b :: rest)) : src.getD off 0 = b := by
  rcases h with ⟨h1, _⟩
  have h2 : (src.drop off).head? = some b := by rw [h1]; rfl
  rw [List.head?_drop] at h2
  rw [List.getD_eq_getElem?_getD, h2]
  rfl

theorem parseInv_one {src : List Nat} {off b : Nat}
    (h : ParseInv src off [b]) : off + 1 = src.length := by
  rcases h with ⟨_, h2⟩
  simpa using h2

theorem unserializeUserDeviceV1_ser (r : UserDeviceRecord) (s : List Nat)
    (hser : serializeUserDeviceV1 r = some s) (hukp : r.user_key_pair = none)
    (hg : r.is_ghost_device = false) (hsd : r.is_server_device = false)
    (hrev : r.revoked = MAX_SAFE_INTEGER) :
    unserializeUserDeviceV1 s = .ok r := by
  unfold serializeUserDeviceV1 at hser
  split_ifs at hser with hc
  rw [Option.some.injEq] at hser
  subst hser
  simp only [userDeviceCommonSizesOk, Bool.and_eq_true, beq_iff_eq] at hc
  obtain ⟨⟨⟨⟨⟨hlr, h1⟩, h2⟩, h3⟩, h4⟩, h5⟩ := hc
  have hinv0 := parseInv_zero (r.ephemeral_public_signature_key ++ (r.user_id ++
    (r.delegation_signature ++ (r.public_signature_key ++ r.public_encryption_key))))
  obtain ⟨hg1, hinv1⟩ := getStaticArray_step hinv0 h1
  obtain ⟨hg2, hinv2⟩ := getStaticArray_step hinv1 h2
  obtain ⟨hg3, hinv3⟩ := getStaticArray_step hinv2 h3
  obtain ⟨hg4, hinv4⟩ := getStaticArray_step hinv3 h4
  obtain ⟨hg5, hinv5⟩ := getStaticArray_last hinv4 h5
  have hend := parseInv_end hinv5
  simp only [unserializeUserDeviceV1, hg1, hg2, hg3, hg4, hg5, bind, Except.bind]
  rw [if_pos hend]
  cases r
  simp_all
  rfl

theorem unserializeUserDeviceV3_ser (r : UserDeviceRecord) (s : List Nat)
    (hser : serializeUserDeviceV3 r = some s) (hrev : r.revoked = MAX_SAFE_INTEGER) :
    unserializeUserDeviceV3 s = .ok r := by
  unfold serializeUserDeviceV3 at hser
  obtain ⟨fl, hfl⟩ : ∃ fl : Nat, fl = (if r.is_server_device then 1 else 0) * 2 +
    (if r.is_ghost_device then 1 else 0) := ⟨_, rfl⟩
  rw [← hfl] at hser
  split_ifs at hser with hc
  simp only [userDeviceCommonSizesOk, Bool.and_eq_true, beq_iff_eq] at hc
  obtain ⟨⟨⟨⟨⟨hlr, h1⟩, h2⟩, h3⟩, h4⟩, h5⟩ := hc
  cases hukp : r.user_key_pair with
  | none => rw [hukp] at hser; simp at hser
  | some ukp =>
    rw [hukp] at hser
    simp only at hser
    split_ifs at hser with h6 h7
    push_neg at h6 h7
    rw [Option.some.injEq] at hser
    subst hser
    have hinv0 := parseInv_zero (r.ephemeral_public_signature_key ++ (r.user_id ++
      (r.delegation_signature ++ (r.public_signature_key ++ (r.public_encryption_key ++
      (serializeUserKeyPair ukp ++ [fl]))))))
    obtain ⟨hg1, hinv1⟩ := getStaticArray_step hinv0 h1
    obtain ⟨hg2, hinv2⟩ := getStaticArray_step hinv1 h2
    obtain ⟨hg3, hinv3⟩ := getStaticArray_step hinv2 h3
    obtain ⟨hg4, hinv4⟩ := getStaticArray_step hinv3 h4
    obtain ⟨hg5, hinv5⟩ := getStaticArray_step hinv4 h5
    obtain ⟨hg6, hinv6⟩ := unserializeUserKeyPair_step h6 h7 hinv5
    have hflag := parseInv_getD hinv6
    have hone := parseInv_one hinv6
    have hgb : decide (fl &&& 1 ≠ 0) = r.is_ghost_device := by
      rw [hfl]; cases r.is_ghost_device <;> cases r.is_server_device <;> rfl
    have hsb : decide (fl &&& 2 ≠ 0) = r.is_server_device := by
      rw [hfl]; cases r.is_ghost_device <;> cases r.is_server_device <;> rfl
    simp only [unserializeUserDeviceV3, hg1, hg2, hg3, hg4, hg5, hg6, bind, Except.bind,
      hflag]
    rw [if_pos hone]
    show Except.ok (⟨List.replicate HASH_SIZE 0, r.ephemeral_public_signature_key,
      r.user_id, r.delegation_signature, r.public_signature_key, r.public_encryption_key,
      some ukp, decide (fl &&& 1 ≠ 0), decide (fl &&& 2 ≠ 0), MAX_SAFE_INTEGER⟩ :
        UserDeviceRecord) = Except.ok r
    rw [hgb, hsb, ← hlr, ← hrev, ← hukp]

/-- Sub-parser step for `unserializeUserKeysSub` against `serializeUserKeys`. -/
theorem unserializeUserKeysSub_step {uk : UserKeys}
    (h1 : uk.public_encryption_key.length = ENCRYPTION_PUBLIC_KEY_SIZE)
    (h2 : uk.previous_public_encryption_key.length = ENCRYPTION_PUBLIC_KEY_SIZE)
    (h3 : uk.encrypted_previous_encryption_key.length = SEALED_KEY_SIZE)
    (hk : ∀ k ∈ uk.private_keys,
      k.recipient.length = HASH_SIZE ∧ k.key.length = SEALED_KEY_SIZE)
    (hcount : uk.private_keys.length < 2 ^ 56)
    {src : List Nat} {off : Nat} {rem : List Nat}
    (h : ParseInv src off (serializeUserKeys uk ++ rem)) :
    unserializeUserKeysSub src off =
      .ok (uk, off + ENCRYPTION_PUBLIC_KEY_SIZE + ENCRYPTION_PUBLIC_KEY_SIZE + SEALED_KEY_SIZE
        + (encodeListLength uk.private_keys).length
        + ((uk.private_keys.map serializePrivateKey).flatten).length) ∧
      ParseInv src (off + ENCRYPTION_PUBLIC_KEY_SIZE + ENCRYPTION_PUBLIC_KEY_SIZE + SEALED_KEY_SIZE
        + (encodeListLength uk.private_keys).length
        + ((uk.private_keys.map serializePrivateKey).flatten).length) rem := by
  have h' : ParseInv src off (uk.public_encryption_key ++
      (uk.previous_public_encryption_key ++ (uk.encrypted_previous_encryption_key ++
      (encodeListLength uk.private_keys ++
      ((uk.private_keys.map serializePrivateKey).flatten ++ rem))))) := by
    simpa [serializeUserKeys, List.append_assoc] using h
  obtain ⟨hg1, hinv1⟩ := getStaticArray_step h' h1
  obtain ⟨hg2, hinv2⟩ := getStaticArray_step hinv1 h2
  obtain ⟨hg3, hinv3⟩ := getStaticArray_step hinv2 h3
  obtain ⟨hg4, hinv4⟩ := unserializeList_ser uk.private_keys
    (fun x hx off' rem' hinv' =>
      unserializePrivateKey_step (hk x hx).1 (hk x hx).2 hinv') hinv3 hcount
  constructor
  · simp only [unserializeUserKeysSub, hg1, hg2, hg3, hg4, bind, Except.bind, pure, Except.pure]
  · exact hinv4

theorem unserializeDeviceRevocationV2_ser (r : DeviceRevocationRecord) (s : List Nat)
    (hser : serializeDeviceRevocationV2 r = some s)
    (hcount : ∀ uk, r.user_keys = some uk → uk.private_keys.length < 2 ^ 56) :
    unserializeDeviceRevocationV2 s = .ok r := by
  unfold serializeDeviceRevocationV2 at hser
  split_ifs at hser with h1
  push_neg at h1
  cases huk : r.user_keys with
  | none => rw [huk] at hser; simp at hser
  | some uk =>
    rw [huk] at hser
    simp only at hser
    split_ifs at hser with h2 h3 h4 h5
    push_neg at h2 h3 h4
    rw [Option.some.injEq] at hser
    subst hser
    have hk : ∀ k ∈ uk.private_keys,
        k.recipient.length = HASH_SIZE ∧ k.key.length = SEALED_KEY_SIZE := by
      intro k hkmem
      have := (List.all_eq_true.mp h5) k hkmem
      simp only [Bool.and_eq_true, beq_iff_eq] at this
      exact this
    have hinv0 := parseInv_zero (r.device_id ++ serializeUserKeys uk)
    obtain ⟨hg1, hinv1⟩ := getStaticArray_step
      (by simpa using hinv0 :
        ParseInv (r.device_id ++ serializeUserKeys uk) 0
          (r.device_id ++ (serializeUserKeys uk ++ []))) h1
    obtain ⟨hg2, hinv2⟩ := unserializeUserKeysSub_step h2 h3 h4 hk (hcount uk huk) hinv1
    have hend := parseInv_end hinv2
    simp only [unserializeDeviceRevocationV2, hg1, hg2, bind, Except.bind]
    rw [if_pos hend]
    show Except.ok (⟨r.device_id, some uk⟩ : DeviceRevocationRecord) = Except.ok r
    rw [← huk]

theorem unserializeDeviceRevocationV1_ser (r : DeviceRevocationRecord) (s : List Nat)
    (hser : serializeDeviceRevocationV1 r = some s) (hnk : r.user_keys = none) :
    unserializeDeviceRevocationV1 s = .ok r := by
  unfold serializeDeviceRevocationV1 at hser
  split_ifs at hser with h1
  rw [Option.some.injEq] at hser
  subst hser
  push_neg at h1
  obtain ⟨hg, _⟩ := getStaticArray_last (parseInv_zero r.device_id) h1
  simp only [unserializeDeviceRevocationV1, hg, bind, Except.bind, pure, Except.pure]
  cases r
  simp_all

/-- A byte string is a well-formed serialized block when it is the
serialization of some block whose numeric fields are in JavaScript's safe
range. -/
def WellFormedSerializedBlock (b : List Nat) : Prop :=
  ∃ blk : Block, wfBlockNumbers blk ∧ serializeBlock blk = some b

/-- C1: block (de)serialization is a round-trip identity for known natures.
For every well-formed serialized block `b`, `unserializeBlock` recovers a
block that `serializeBlock` maps back to `b`; and for every record of a
known nature (well-formed for that nature's serializer, with the fields the
wire format does not carry at their canonical values), serializing it and
parsing the payload with `unserializePayload` is the identity.  The source
has no serializer for `device_creation_v2`, so the record conjuncts cover
the ten natures that have one. -/
theorem c1_serialization_round_trip :
    (∀ b, WellFormedSerializedBlock b →
      ∃ blk, unserializeBlock b = .ok blk ∧ serializeBlock blk = some b) ∧
    (∀ (blk : Block) (r : TrustchainCreationRecord),
      blk.nature = NATURE.trustchain_creation →
      serializeTrustchainCreation r = some blk.payload →
      unserializePayload blk = .ok (.trustchainCreation r)) ∧
    (∀ (blk : Block) (r : UserDeviceRecord),
      blk.nature = NATURE.device_creation_v1 →
      serializeUserDeviceV1 r = some blk.payload →
      r.user_key_pair = none → r.is_ghost_device = false → r.is_server_device = false →
      r.revoked = MAX_SAFE_INTEGER →
      unserializePayload blk = .ok (.userDevice r)) ∧
    (∀ (blk : Block) (r : UserDeviceRecord),
      blk.nature = NATURE.device_creation_v3 →
      serializeUserDeviceV3 r = some blk.payload →
      r.revoked = MAX_SAFE_INTEGER →
      unserializePayload blk = .ok (.userDevice r)) ∧
    (∀ (blk : Block) (r : KeyPublishRecord),
      blk.nature = NATURE.key_publish_to_device →
      serializeKeyPublish r = some blk.payload →
      unserializePayload blk = .ok (.keyPublish r)) ∧
    (∀ (blk : Block) (r : KeyPublishRecord),
      blk.nature = NATURE.key_publish_to_user →
      serializeKeyPublishToUser r = some blk.payload →
      unserializePayload blk = .ok (.keyPublish r)) ∧
    (∀ (blk : Block) (r : KeyPublishRecord),
      blk.nature = NATURE.key_publish_to_user_group →
      serializeKeyPublishToUserGroup r = some blk.payload →
      unserializePayload blk = .ok (.keyPublish r)) ∧
    (∀ (blk : Block) (r : DeviceRevocationRecord),
      blk.nature = NATURE.device_revocation_v1 →
      serializeDeviceRevocationV1 r = some blk.payload →
      r.user_keys = none →
      unserializePayload blk = .ok (.deviceRevocation r)) ∧
    (∀ (blk : Block) (r : DeviceRevocationRecord),
      blk.nature = NATURE.device_revocation_v2 →
      serializeDeviceRevocationV2 r = some blk.payload →
      (∀ uk, r.user_keys = some uk → uk.private_keys.length < 2 ^ 56) →
      unserializePayload blk = .ok (.deviceRevocation r)) ∧
    (∀ (blk : Block) (r : UserGroupCreationRecord),
      blk.nature = NATURE.user_group_creation →
      serializeUserGroupCreation r = some blk.payload →
      r.encrypted_group_private_encryption_keys_for_users.length < 2 ^ 56 →
      unserializePayload blk = .ok (.userGroupCreation r)) ∧
    (∀ (blk : Block) (r : UserGroupAdditionRecord),
      blk.nature = NATURE.user_group_addition →
      serializeUserGroupAddition r = some blk.payload →
      r.group_id.length = HASH_SIZE →
      r.encrypted_group_private_encryption_keys_for_users.length < 2 ^ 56 →
      unserializePayload blk = .ok (.userGroupAddition r)) := by
  refine ⟨?_, ?_, ?_, ?_, ?_, ?_, ?_, ?_, ?_, ?_, ?_⟩
  · rintro b ⟨blk, hwf, hser⟩
    exact ⟨blk, unserializeBlock_serializeBlock blk b hwf hser, hser⟩
  · intro blk r hn hser
    rw [unserializePayload, if_pos hn, unserializeTrustchainCreation_ser r blk.payload hser]
    rfl
  · intro blk r hn hser hukp hg hsd hrev
    rw [unserializePayload, if_neg (by rw [hn]; decide), if_pos hn,
      unserializeUserDeviceV1_ser r blk.payload hser hukp hg hsd hrev]
    rfl
  · intro blk r hn hser hrev
    rw [unserializePayload, if_neg (by rw [hn]; decide), if_neg (by rw [hn]; decide),
      if_neg (by rw [hn]; decide), if_pos hn,
      unserializeUserDeviceV3_ser r blk.payload hser hrev]
    rfl
  · intro blk r hn hser
    rw [unserializePayload, if_neg (by rw [hn]; decide), if_neg (by rw [hn]; decide),
      if_neg (by rw [hn]; decide), if_neg (by rw [hn]; decide), if_pos hn,
      unserializeKeyPublish_ser r blk.payload hser]
    rfl
  · intro blk r hn hser
    rw [unserializePayload, if_neg (by rw [hn]; decide), if_neg (by rw [hn]; decide),
      if_neg (by rw [hn]; decide), if_neg (by rw [hn]; decide), if_neg (by rw [hn]; decide),
      if_pos hn, unserializeKeyPublishToUser_ser r blk.payload hser]
    rfl
  · intro blk r hn hser
    rw [unserializePayload, if_neg (by rw [hn]; decide), if_neg (by rw [hn]; decide),
      if_neg (by rw [hn]; decide), if_neg (by rw [hn]; decide), if_neg (by rw [hn]; decide),
      if_neg (by rw [hn]; decide), if_pos hn,
      unserializeKeyPublishToUserGroup_ser r blk.payload hser]
    rfl
  · intro blk r hn hser hnk
    rw [unserializePayload, if_neg (by rw [hn]; decide), if_neg (by rw [hn]; decide),
      if_neg (by rw [hn]; decide), if_neg (by rw [hn]; decide), if_neg (by rw [hn]; decide),
      if_neg (by rw [hn]; decide), if_neg (by rw [hn]; decide), if_pos hn,
      unserializeDeviceRevocationV1_ser r blk.payload hser hnk]
    rfl
  · intro blk r hn hser hcount
    rw [unserializePayload, if_neg (by rw [hn]; decide), if_neg (by rw [hn]; decide),
      if_neg (by rw [hn]; decide), if_neg (by rw [hn]; decide), if_neg (by rw [hn]; decide),
      if_neg (by rw [hn]; decide), if_neg (by rw [hn]; decide), if_neg (by rw [hn]; decide),
      if_pos hn, unserializeDeviceRevocationV2_ser r blk.payload hser hcount]
    rfl
  · intro blk r hn hser hcount
    rw [unserializePayload, if_neg (by rw [hn]; decide), if_neg (by rw [hn]; decide),
      if_neg (by rw [hn]; decide), if_neg (by rw [hn]; decide), if_neg (by rw [hn]; decide),
      if_neg (by rw [hn]; decide), if_neg (by rw [hn]; decide), if_neg (by rw [hn]; decide),
      if_neg (by rw [hn]; decide), if_pos hn,
      unserializeUserGroupCreation_ser r blk.payload hser hcount]
    rfl
  · intro blk r hn hser hgid hcount
    rw [unserializePayload, if_neg (by rw [hn]; decide), if_neg (by rw [hn]; decide),
      if_neg (by rw [hn]; decide), if_neg (by rw [hn]; decide), if_neg (by rw [hn]; decide),
      if_neg (by rw [hn]; decide), if_neg (by rw [hn]; decide), if_neg (by rw [hn]; decide),
      if_neg (by rw [hn]; decide), if_neg (by rw [hn]; decide), if_pos hn,
      unserializeUserGroupAddition_ser r blk.payload hser hgid hcount]
    rfl

/-! ### Concrete examples for the codec round trip -/

def c1ExBlock : Block :=
  { index := 5, trustchain_id := List.replicate 32 0, nature := 1, payload := [7],
    author := List.replicate 32 1, signature := List.replicate 64 2 }

def c1RecTc : TrustchainCreationRecord := { public_signature_key := List.replicate 32 3 }

def c1RecV1 : UserDeviceRecord :=
  { last_reset := List.replicate 32 0, ephemeral_public_signature_key := List.replicate 32 4,
    user_id := List.replicate 32 5, delegation_signature := List.replicate 64 6,
    public_signature_key := List.replicate 32 7, public_encryption_key := List.replicate 32 8,
    user_key_pair := none, is_ghost_device := false, is_server_device := false,
    revoked := MAX_SAFE_INTEGER }

def c1RecV3 : UserDeviceRecord :=
  { c1RecV1 with
    user_key_pair := some { public_encryption_key := List.replicate 32 9,
                            encrypted_private_encryption_key := List.replicate 80 10 },
    is_ghost_device := true }

def c1RecKp : KeyPublishRecord :=
  { recipient := List.replicate 32 1, resourceId := List.replicate 16 2,
    key := List.replicate 72 3 }

def c1RecKpUser : KeyPublishRecord := { c1RecKp with key := List.replicate 80 3 }

def c1RecRevV1 : DeviceRevocationRecord :=
  { device_id := List.replicate 32 1, user_keys := none }

def c1RecRevV2 : DeviceRevocationRecord :=
  { device_id := List.replicate 32 1,
    user_keys := some
      { public_encryption_key := List.replicate 32 2,
        previous_public_encryption_key := List.replicate 32 3,
        encrypted_previous_encryption_key := List.replicate 80 4,
        private_keys := [{ recipient := List.replicate 32 5, key := List.replicate 80 6 }] } }

def c1RecUgc : UserGroupCreationRecord :=
  { public_signature_key := List.replicate 32 1, public_encryption_key := List.replicate 32 2,
    encrypted_group_private_signature_key := List.replicate 96 3,
    encrypted_group_private_encryption_keys_for_users :=
      [{ public_user_encryption_key := List.replicate 32 4,
         encrypted_group_private_encryption_key := List.replicate 80 5 }],
    self_signature := List.replicate 64 6 }

def c1RecUga : UserGroupAdditionRecord :=
  { group_id := List.replicate 32 1, previous_group_block := List.replicate 32 2,
    encrypted_group_private_encryption_keys_for_users :=
      [{ public_user_encryption_key := List.replicate 32 3,
         encrypted_group_private_encryption_key := List.replicate 80 4 }],
    self_signature_with_current_key := List.replicate 64 5 }

/-- C1 witness: the round trip evaluated at concrete blocks and records of
every nature that has a serializer. -/
theorem c1_witness :
    (∃ blk, unserializeBlock ((serializeBlock c1ExBlock).getD []) = .ok blk ∧
      serializeBlock blk = some ((serializeBlock c1ExBlock).getD [])) ∧
    unserializePayload { c1ExBlock with
      nature := NATURE.trustchain_creation,
      payload := (serializeTrustchainCreation c1RecTc).getD [] } = .ok (.trustchainCreation c1RecTc) ∧
    unserializePayload { c1ExBlock with
      nature := NATURE.device_creation_v1,
      payload := (serializeUserDeviceV1 c1RecV1).getD [] } = .ok (.userDevice c1RecV1) ∧
    unserializePayload { c1ExBlock with
      nature := NATURE.device_creation_v3,
      payload := (serializeUserDeviceV3 c1RecV3).getD [] } = .ok (.userDevice c1RecV3) ∧
    unserializePayload { c1ExBlock with
      nature := NATURE.key_publish_to_device,
      payload := (serializeKeyPublish c1RecKp).getD [] } = .ok (.keyPublish c1RecKp) ∧
    unserializePayload { c1ExBlock with
      nature := NATURE.key_publish_to_user,
      payload := (serializeKeyPublishToUser c1RecKpUser).getD [] } = .ok (.keyPublish c1RecKpUser) ∧
    unserializePayload { c1ExBlock with
      nature := NATURE.key_publish_to_user_group,
      payload := (serializeKeyPublishToUserGroup c1RecKpUser).getD [] } = .ok (.keyPublish c1RecKpUser) ∧
    unserializePayload { c1ExBlock with
      nature := NATURE.device_revocation_v1,
      payload := (serializeDeviceRevocationV1 c1RecRevV1).getD [] } = .ok (.deviceRevocation c1RecRevV1) ∧
    unserializePayload { c1ExBlock with
      nature := NATURE.device_revocation_v2,
      payload := (serializeDeviceRevocationV2 c1RecRevV2).getD [] } = .ok (.deviceRevocation c1RecRevV2) ∧
    unserializePayload { c1ExBlock with
      nature := NATURE.user_group_creation,
      payload := (serializeUserGroupCreation c1RecUgc).getD [] } = .ok (.userGroupCreation c1RecUgc) ∧
    unserializePayload { c1ExBlock with
      nature := NATURE.user_group_addition,
      payload := (serializeUserGroupAddition c1RecUga).getD [] } = .ok (.userGroupAddition c1RecUga) :=
  ⟨c1_serialization_round_trip.1 _ ⟨c1ExBlock, by constructor <;> [skip; constructor] <;> decide, rfl⟩,
   c1_serialization_round_trip.2.1 _ c1RecTc rfl rfl,
   c1_serialization_round_trip.2.2.1 _ c1RecV1 rfl rfl rfl rfl rfl rfl,
   c1_serialization_round_trip.2.2.2.1 _ c1RecV3 rfl rfl rfl,
   c1_serialization_round_trip.2.2.2.2.1 _ c1RecKp rfl rfl,
   c1_serialization_round_trip.2.2.2.2.2.1 _ c1RecKpUser rfl rfl,
   c1_serialization_round_trip.2.2.2.2.2.2.1 _ c1RecKpUser rfl rfl,
   c1_serialization_round_trip.2.2.2.2.2.2.2.1 _ c1RecRevV1 rfl rfl rfl,
   c1_serialization_round_trip.2.2.2.2.2.2.2.2.1 _ c1RecRevV2 rfl rfl
     (fun uk h => by cases h; decide),
   c1_serialization_round_trip.2.2.2.2.2.2.2.2.2.1 _ c1RecUgc rfl rfl (by decide),
   c1_serialization_round_trip.2.2.2.2.2.2.2.2.2.2 _ c1RecUga rfl rfl rfl (by decide)⟩

/-! ### C8: parser failure modes -/

/-- A serialized block whose version byte is 0 — an unknown version, since
the current version is 1. -/
def c8VersionZeroBytes : List Nat :=
  0 :: 0 :: (List.replicate 32 0 ++ (1 :: 0 :: (List.replicate 32 0 ++ List.replicate 64 0)))

set_option maxRecDepth 4000 in
/-- C8 counterexample: the claim says the block parser fails with
*UpgradeRequired* whenever the envelope version differs from the current
version 1, but a block whose version byte is 0 parses successfully —
`unserializeBlock` only rejects versions *greater* than 1. -/
theorem c8_counterexample :
    varintDecodeAt c8VersionZeroBytes 0 = .ok (0, 1) ∧ (0 : Nat) ≠ currentVersion ∧
    unserializeBlock c8VersionZeroBytes =
      .ok { index := 0, trustchain_id := List.replicate 32 0, nature := 1, payload := [],
            author := List.replicate 32 0, signature := List.replicate 64 0 } := by
  refine ⟨by rfl, by decide, by rfl⟩

/-- C8 (amended): `unserializeBlock` raises *UpgradeRequired* whenever the
decoded version is *greater* than the current version 1 (version 0 is
accepted, see the counterexample); `unserializePayload` raises
*UpgradeRequired* on any nature outside the `NATURE` enum; and truncating a
well-formed serialized block anywhere makes `unserializeBlock` fail — with
*InvalidFormat* when the cut lands in a fixed-size or length-prefixed
field, and with the `varint` library's `RangeError` when it lands inside a
varint field. -/
theorem c8_parser_failure_modes :
    (∀ (src : List Nat) (v c : Nat), varintDecodeAt src 0 = .ok (v, c) →
      currentVersion < v → unserializeBlock src = .error .upgradeRequired) ∧
    (∀ blk : Block, natureKind blk.nature = none →
      unserializePayload blk = .error .upgradeRequired) ∧
    (∀ (blk : Block) (s : List Nat), wfBlockNumbers blk → serializeBlock blk = some s →
      ∀ k, k < s.length →
        unserializeBlock (s.take k) = .error .rangeError ∨
        unserializeBlock (s.take k) = .error .invalidFormat) :=
  ⟨unserializeBlock_version_gt, unserializePayload_unknown_nature, unserializeBlock_truncated⟩

/-- C8 witness: the three failure modes evaluated at concrete inputs —
version byte 2, nature 5 (not in the enum), and a truncation of a concrete
serialized block. -/
theorem c8_witness :
    unserializeBlock [2] = .error .upgradeRequired ∧
    unserializePayload { c1ExBlock with nature := 5 } = .error .upgradeRequired ∧
    (unserializeBlock (((serializeBlock c1ExBlock).getD []).take 0) = .error .rangeError ∨
     unserializeBlock (((serializeBlock c1ExBlock).getD []).take 0) = .error .invalidFormat) :=
  ⟨c8_parser_failure_modes.1 [2] 2 1 (by rfl) (by decide),
   c8_parser_failure_modes.2.1 _ (by rfl),
   c8_parser_failure_modes.2.2 c1ExBlock _ (by refine ⟨?_, ?_, ?_⟩ <;> decide) rfl 0 (by decide)⟩

/-! ### Verifier data model

`TrustchainVerifier` (concatenated into `Groups/Manager.js`) validates
entries against the verified user and group state.  Signature verification
(`tcrypto.verifySignature(data, signature, publicKey)`) is an external
cryptographic primitive, taken as a function parameter `verifySig`.
Device ids and user ids are compared in the source through their base64
encodings; base64 is injective, so they are modelled as the byte lists
themselves. -/

structure Device where
  deviceId : List Nat
  devicePublicSignatureKey : List Nat
  isGhostDevice : Bool
  isServerDevice : Bool
  revokedAt : Nat
deriving DecidableEq, Repr

structure UserPublicKeyEntry where
  userPublicKey : List Nat
  index : Nat
deriving DecidableEq, Repr

structure User where
  userId : List Nat
  userPublicKeys : List UserPublicKeyEntry
  devices : List Device
deriving DecidableEq, Repr

/-- Modelled from the spec: `getLastUserPublicKey` of the missing
`Users/UserStore.js` returns the user's current (last) user public key, or
nothing when the user has none (spec section 3: `userPublicKeys` is an
append-only ordered list). -/
def getLastUserPublicKey (user : User) : Option (List Nat) :=
  user.userPublicKeys.getLast?.map (·.userPublicKey)

/-- The `InvalidBlockError` codes the verifier raises, plus the two codes
the spec lists that no raise site uses (`invalid_author`, `revoked_author`). -/
inductive ErrorCode
  | invalid_nature
  | invalid_author_for_trustchain_creation
  | invalid_signature
  | invalid_root_block
  | forbidden
  | invalid_last_reset
  | invalid_delegation_signature
  | invalid_public_user_key
  | invalid_author_type
  | invalid_recipient
  | version_mismatch
  | invalid_user_public_key
  | invalid_user_group_public_key
  | group_already_exists
  | invalid_self_signature
  | invalid_group_id
  | invalid_previous_group_block
  | invalid_revoked_user
  | invalid_revoked_device
  | device_already_revoked
  | invalid_revocation_version
  | missing_user_keys
  | invalid_previous_key
  | invalid_new_key
  | unknown_author
  | author_not_found
  | revoked_author_error
  | invalid_author
  | revoked_author
deriving DecidableEq, Repr

/-- A verifier failure: an `InvalidBlockError` carrying a code, or a plain
JavaScript `Error`/`TypeError` on the paths the source treats as
unreachable assertions. -/
inductive VErr
  | invalidBlock (code : ErrorCode)
  | internalError
deriving DecidableEq, Repr

/-- Modelled from the spec: `rootEntryAuthor` of the missing
`Trustchain/TrustchainStore.js`; the root block's author is all zeroes
(spec section 4.2: `author = 0^32`). -/
def rootEntryAuthor : List Nat := List.replicate 32 0

structure UnverifiedEntry where
  nature : Nat
  hash : List Nat
  signature : List Nat
  author : List Nat
  index : Nat
deriving DecidableEq, Repr

/-- `TrustchainVerifier._verifyTrustchainCreationEntry`. -/
def verifyTrustchainCreationEntry (trustchainId : List Nat) (entry : UnverifiedEntry) :
    Except VErr Unit :=
  if ¬ isTrustchainCreation entry.nature then .error (.invalidBlock .invalid_nature)
  else if entry.author ≠ rootEntryAuthor then
    .error (.invalidBlock .invalid_author_for_trustchain_creation)
  else if ¬ isNullArray entry.signature then .error (.invalidBlock .invalid_signature)
  else if entry.hash ≠ trustchainId then .error (.invalidBlock .invalid_root_block)
  else .ok ()

structure DeviceCreationEntry where
  nature : Nat
  hash : List Nat
  signature : List Nat
  author : List Nat
  index : Nat
  last_reset : List Nat
  ephemeral_public_signature_key : List Nat
  user_id : List Nat
  delegation_signature : List Nat
  public_signature_key : List Nat
  public_encryption_key : List Nat
  user_key_pair : Option UserKeyPair
  is_ghost_device : Bool
  is_server_device : Bool
deriving DecidableEq, Repr

/-- `TrustchainVerifier._verifyUserCreationEntry` (first-device case). -/
def verifyUserCreationEntry (entry : DeviceCreationEntry) (user : Option User) :
    Except VErr Unit :=
  match user with
  | none => .ok ()
  | some user =>
    if user.devices.length = 0 then .ok ()
    else if user.devices.any (fun d => d.deviceId == entry.hash) then .ok ()
    else .error (.invalidBlock .forbidden)

/-- `TrustchainVerifier._verifyDeviceCreationEntry`. -/
def verifyDeviceCreationEntry (verifySig : List Nat → List Nat → List Nat → Bool)
    (entry : DeviceCreationEntry) (authorUser : Option User) (authorDevice : Option Device)
    (authorKey : List Nat) (user : Option User) : Except VErr Unit :=
  if ¬ isNullArray entry.last_reset then .error (.invalidBlock .invalid_last_reset)
  else
  let userPublicKey := user.bind getLastUserPublicKey
  if userPublicKey.isSome ∧ entry.nature ≠ NATURE.device_creation_v3 then
    .error (.invalidBlock .forbidden)
  else if ¬ isNullArray entry.last_reset then .error (.invalidBlock .invalid_last_reset)
  else
  let delegationBuffer := entry.ephemeral_public_signature_key ++ entry.user_id
  if ¬ verifySig delegationBuffer entry.delegation_signature authorKey then
    .error (.invalidBlock .invalid_delegation_signature)
  else if ¬ verifySig entry.hash entry.signature entry.ephemeral_public_signature_key then
    .error (.invalidBlock .invalid_signature)
  else
  match authorDevice with
  | some authorDevice =>
    let v3KeyMismatch : Bool :=
      (entry.nature == NATURE.device_creation_v3) &&
      (match userPublicKey, entry.user_key_pair with
       | some upk, some ukp => ukp.public_encryption_key != upk
       | _, _ => false)
    if v3KeyMismatch then .error (.invalidBlock .invalid_public_user_key)
    else
    match authorUser with
    | none => .error .internalError
    | some authorUser =>
      if entry.user_id ≠ authorUser.userId then .error (.invalidBlock .forbidden)
      else if entry.is_server_device ≠ authorDevice.isServerDevice then
        .error (.invalidBlock .invalid_author_type)
      else .ok ()
  | none => verifyUserCreationEntry entry user

structure KeyPublishEntry where
  nature : Nat
  hash : List Nat
  signature : List Nat
  author : List Nat
  index : Nat
  recipient : List Nat
  resourceId : List Nat
  key : List Nat
deriving DecidableEq, Repr

/-- Modelled from the spec: the `UserStore` lookups of the missing
`Users/UserStore.js`, as scans of the list of verified users. -/
def findDevice (userStore : List User) (deviceId : List Nat) : Option Device :=
  ((userStore.map (·.devices)).flatten).find? (fun d => d.deviceId == deviceId)

def findDeviceToUser (userStore : List User) (deviceId : List Nat) : Option (List Nat) :=
  (userStore.find? (fun u => u.devices.any (fun d => d.deviceId == deviceId))).map (·.userId)

def findUser (userStore : List User) (userId : List Nat) : Option User :=
  userStore.find? (fun u => u.userId == userId)

def findUserByUserPublicKey (userStore : List User) (pk : List Nat) : Option User :=
  userStore.find? (fun u => u.userPublicKeys.any (fun k => k.userPublicKey == pk))

/-- `TrustchainVerifier._verifyKeyPublishToDeviceEntry`. -/
def verifyKeyPublishToDeviceEntry (userStore : List User) (entry : KeyPublishEntry) :
    Except VErr Unit :=
  match findDevice userStore entry.recipient with
  | none => .error (.invalidBlock .invalid_recipient)
  | some _ =>
    match findDeviceToUser userStore entry.recipient with
    | none => .error (.invalidBlock .invalid_recipient)
    | some userId =>
      match findUser userStore userId with
      | none => .error (.invalidBlock .invalid_recipient)
      | some user =>
        if user.userPublicKeys.any (fun k => k.index < entry.index) then
          .error (.invalidBlock .version_mismatch)
        else .ok ()

/-- `TrustchainVerifier._verifyKeyPublishToUserEntry`. -/
def verifyKeyPublishToUserEntry (userStore : List User) (entry : KeyPublishEntry) :
    Except VErr Unit :=
  match findUserByUserPublicKey userStore entry.recipient with
  | none => .error (.invalidBlock .invalid_recipient)
  | some recipient =>
    match recipient.userPublicKeys.find? (fun k => k.userPublicKey == entry.recipient) with
    | none => .error (.invalidBlock .invalid_user_public_key)
    | some indexUserKey =>
      if entry.index < indexUserKey.index then .error (.invalidBlock .invalid_user_public_key)
      else
      match recipient.userPublicKeys.find? (fun k => indexUserKey.index < k.index) with
      | some futureUserKey =>
        if futureUserKey.index < entry.index then
          .error (.invalidBlock .invalid_user_public_key)
        else .ok ()
      | none => .ok ()

structure PendingGroupV2EncryptedKey where
  pending_app_public_signature_key : List Nat
  pending_tanker_public_signature_key : List Nat
  encrypted_group_private_encryption_key : List Nat
deriving DecidableEq, Repr

structure PendingEncryptionKey where
  appPublicSignatureKey : List Nat
  tankerPublicSignatureKey : List Nat
  encryptedGroupPrivateEncryptionKey : List Nat
deriving DecidableEq, Repr

/-- One stored group record; a full (internal) group carries the private
keys, an external one carries the encrypted private signature key instead. -/
structure StoredGroup where
  groupId : List Nat
  publicSignatureKey : List Nat
  publicEncryptionKey : List Nat
  encryptedPrivateSignatureKey : Option (List Nat)
  signaturePrivateKey : Option (List Nat)
  encryptionPrivateKey : Option (List Nat)
  pendingEncryptionKeys : List PendingEncryptionKey
  lastGroupBlock : List Nat
  index : Nat
deriving DecidableEq, Repr

/-- Modelled from the spec and `GroupStore.spec.js`: `findExternal` by
group id returns the stored group (full or external). -/
def findExternal (groupStore : List StoredGroup) (groupId : List Nat) : Option StoredGroup :=
  groupStore.find? (fun g => g.groupId == groupId)

def findExternalByPublicEncryptionKey (groupStore : List StoredGroup) (pk : List Nat) :
    Option StoredGroup :=
  groupStore.find? (fun g => g.publicEncryptionKey == pk)

/-- `TrustchainVerifier._verifyKeyPublishToUserGroupEntry`; the source
dereferences the re-lookup by group id without a null check, modelled as
`internalError`. -/
def verifyKeyPublishToUserGroupEntry (groupStore : List StoredGroup)
    (entry : KeyPublishEntry) : Except VErr Unit :=
  match findExternalByPublicEncryptionKey groupStore entry.recipient with
  | none => .error (.invalidBlock .invalid_recipient)
  | some thenGroup =>
    match findExternal groupStore thenGroup.groupId with
    | none => .error .internalError
    | some curGroup =>
      if thenGroup.index < curGroup.index ∧ curGroup.index < entry.index then
        .error (.invalidBlock .invalid_user_group_public_key)
      else .ok ()

/-- `TrustchainVerifier._verifyKeyPublishEntry`. -/
def verifyKeyPublishEntry (verifySig : List Nat → List Nat → List Nat → Bool)
    (userStore : List User) (groupStore : List StoredGroup)
    (entry : KeyPublishEntry) (authorEntry : Device) : Except VErr Unit :=
  if ¬ (isKeyPublishToDevice entry.nature || isKeyPublishToUser entry.nature ||
      isKeyPublishToUserGroup entry.nature) then
    .error (.invalidBlock .invalid_nature)
  else if ¬ verifySig entry.hash entry.signature authorEntry.devicePublicSignatureKey then
    .error (.invalidBlock .invalid_signature)
  else if isKeyPublishToDevice entry.nature then
    verifyKeyPublishToDeviceEntry userStore entry
  else if isKeyPublishToUser entry.nature then
    verifyKeyPublishToUserEntry userStore entry
  else if isKeyPublishToUserGroup entry.nature then
    verifyKeyPublishToUserGroupEntry groupStore entry
  else .ok ()

structure UserGroupCreationEntry where
  hash : List Nat
  signature : List Nat
  author : List Nat
  index : Nat
  public_signature_key : List Nat
  public_encryption_key : List Nat
  encrypted_group_private_signature_key : List Nat
  encrypted_group_private_encryption_keys_for_users : List GroupEncryptedKey
  pending_encrypted_group_private_encryption_keys_for_users :
    Option (List PendingGroupV2EncryptedKey)
  self_signature : List Nat
deriving DecidableEq, Repr

structure UserGroupAdditionEntry where
  hash : List Nat
  signature : List Nat
  author : List Nat
  index : Nat
  group_id : List Nat
  previous_group_block : List Nat
  encrypted_group_private_encryption_keys_for_users : List GroupEncryptedKey
  pending_encrypted_group_private_encryption_keys_for_users :
    Option (List PendingGroupV2EncryptedKey)
  self_signature_with_current_key : List Nat
deriving DecidableEq, Repr

/-- `getUserGroupCreationBlockSignData` of `Blocks/BlockGenerator.js`
(pinned by the in-src test `BlockGenerator.spec.js`): the concatenation of
every payload field except the self-signature. -/
def getUserGroupCreationBlockSignData (r : UserGroupCreationEntry) : List Nat :=
  r.public_signature_key ++ (r.public_encryption_key ++
    (r.encrypted_group_private_signature_key ++
    (r.encrypted_group_private_encryption_keys_for_users.map
      (fun k => k.public_user_encryption_key ++ k.encrypted_group_private_encryption_key)).flatten))

/-- `getUserGroupAdditionBlockSignData` of `Blocks/BlockGenerator.js`
(pinned by the in-src test `BlockGenerator.spec.js`). -/
def getUserGroupAdditionBlockSignData (r : UserGroupAdditionEntry) : List Nat :=
  r.group_id ++ (r.previous_group_block ++
    (r.encrypted_group_private_encryption_keys_for_users.map
      (fun k => k.public_user_encryption_key ++ k.encrypted_group_private_encryption_key)).flatten)

/-- `TrustchainVerifier._verifyUserGroupCreationEntry`. -/
def verifyUserGroupCreationEntry (verifySig : List Nat → List Nat → List Nat → Bool)
    (entry : UserGroupCreationEntry) (authorEntry : Device)
    (existingGroup : Option StoredGroup) : Except VErr Unit :=
  if ¬ verifySig entry.hash entry.signature authorEntry.devicePublicSignatureKey then
    .error (.invalidBlock .invalid_signature)
  else if (match existingGroup with
           | some existingGroup =>
             existingGroup.publicEncryptionKey != entry.public_encryption_key
           | none => false) then
    .error (.invalidBlock .group_already_exists)
  else if ¬ verifySig (getUserGroupCreationBlockSignData entry) entry.self_signature
      entry.public_signature_key then
    .error (.invalidBlock .invalid_self_signature)
  else .ok ()

/-- `TrustchainVerifier._verifyUserGroupAdditionEntry`. -/
def verifyUserGroupAdditionEntry (verifySig : List Nat → List Nat → List Nat → Bool)
    (entry : UserGroupAdditionEntry) (authorEntry : Device)
    (currentGroup : Option StoredGroup) : Except VErr Unit :=
  if ¬ verifySig entry.hash entry.signature authorEntry.devicePublicSignatureKey then
    .error (.invalidBlock .invalid_signature)
  else
  match currentGroup with
  | none => .error (.invalidBlock .invalid_group_id)
  | some currentGroup =>
    if entry.previous_group_block ≠ currentGroup.lastGroupBlock then
      .error (.invalidBlock .invalid_previous_group_block)
    else if ¬ verifySig (getUserGroupAdditionBlockSignData entry)
        entry.self_signature_with_current_key currentGroup.publicSignatureKey then
      .error (.invalidBlock .invalid_self_signature)
    else .ok ()

structure DeviceRevocationEntry where
  nature : Nat
  hash : List Nat
  signature : List Nat
  author : List Nat
  index : Nat
  device_id : List Nat
  user_keys : Option UserKeys
deriving DecidableEq, Repr

/-- `TrustchainVerifier._verifyDeviceRevocationEntry`. -/
def verifyDeviceRevocationEntry (verifySig : List Nat → List Nat → List Nat → Bool)
    (entry : DeviceRevocationEntry) (authorUserId : List Nat) (authorKey : List Nat)
    (targetUser : Option User) : Except VErr Unit :=
  if ¬ verifySig entry.hash entry.signature authorKey then
    .error (.invalidBlock .invalid_signature)
  else
  match targetUser with
  | none => .error (.invalidBlock .invalid_revoked_user)
  | some targetUser =>
    match targetUser.devices.find? (fun d => d.deviceId == entry.device_id) with
    | none => .error (.invalidBlock .invalid_revoked_device)
    | some revokedDevice =>
      if revokedDevice.revokedAt < entry.index then
        .error (.invalidBlock .device_already_revoked)
      else if authorUserId ≠ targetUser.userId then .error (.invalidBlock .forbidden)
      else if entry.nature = NATURE.device_revocation_v1 then
        if targetUser.userPublicKeys.length ≠ 0 then
          .error (.invalidBlock .invalid_revocation_version)
        else .ok ()
      else
        match entry.user_keys with
        | none => .error (.invalidBlock .missing_user_keys)
        | some newKeys =>
          if (match getLastUserPublicKey targetUser with
              | some userPublicKey =>
                newKeys.previous_public_encryption_key != userPublicKey
              | none => false) then
            .error (.invalidBlock .invalid_previous_key)
          else
          let activeDevices := targetUser.devices.filter
            (fun d => entry.index < d.revokedAt ∧ d.deviceId ≠ entry.device_id)
          if activeDevices.length ≠ newKeys.private_keys.length then
            .error (.invalidBlock .invalid_new_key)
          else if activeDevices.any (fun d =>
              (newKeys.private_keys.find? (fun k => k.recipient == d.deviceId)).isNone) then
            .error (.invalidBlock .invalid_new_key)
          else .ok ()

/-! ### Group store and `GroupUpdater`

`sealDecrypt` and the keystore lookups are external primitives and local
key state, bundled into a context parameter. -/

structure KeyPair where
  publicKey : List Nat
  privateKey : List Nat
deriving DecidableEq, Repr

structure ProvisionalIdentityKeyPairs where
  tankerEncryptionKeyPair : KeyPair
  appEncryptionKeyPair : KeyPair
deriving DecidableEq, Repr

structure CryptoCtx where
  sealDecrypt : List Nat → KeyPair → List Nat
  findUserKey : List Nat → Option KeyPair
  findProvisionalKey : List Nat → Option ProvisionalIdentityKeyPairs

/-- `findMyUserKeys` of `Groups/GroupUpdater.js`. -/
def findMyUserKeys (ctx : CryptoCtx) : List GroupEncryptedKey → Option (KeyPair × List Nat)
  | [] => none
  | gek :: rest =>
    match ctx.findUserKey gek.public_user_encryption_key with
    | some correspondingPair => some (correspondingPair, gek.encrypted_group_private_encryption_key)
    | none => findMyUserKeys ctx rest

/-- `findMyProvisionalKeys` of `Groups/GroupUpdater.js` (a provisional key
is looked up by the concatenation of the two public signature keys). -/
def findMyProvisionalKeys (ctx : CryptoCtx) :
    List PendingGroupV2EncryptedKey → Option (ProvisionalIdentityKeyPairs × List Nat)
  | [] => none
  | gek :: rest =>
    match ctx.findProvisionalKey
        (gek.pending_app_public_signature_key ++ gek.pending_tanker_public_signature_key) with
    | some correspondingPair => some (correspondingPair, gek.encrypted_group_private_encryption_key)
    | none => findMyProvisionalKeys ctx rest

/-- `provisionalUnseal` of `Groups/GroupUpdater.js`. -/
def provisionalUnseal (ctx : CryptoCtx) (ciphertext : List Nat)
    (keys : ProvisionalIdentityKeyPairs) : List Nat :=
  ctx.sealDecrypt (ctx.sealDecrypt ciphertext keys.tankerEncryptionKeyPair)
    keys.appEncryptionKeyPair

/-- Modelled from the spec and `GroupStore.spec.js`: `GroupStore.put` /
`putExternal` store one record per group id (an upsert). -/
def groupStorePut (store : List StoredGroup) (g : StoredGroup) : List StoredGroup :=
  if store.any (fun x => x.groupId == g.groupId) then
    store.map (fun x => if x.groupId == g.groupId then g else x)
  else store ++ [g]

/-- Modelled from the spec and `GroupStore.spec.js`:
`GroupStore.updateLastGroupBlock` sets the stored group's
`lastGroupBlock` and `index`. -/
def updateLastGroupBlock (store : List StoredGroup) (groupId hash : List Nat) (index : Nat) :
    List StoredGroup :=
  store.map (fun g =>
    if g.groupId == groupId then { g with lastGroupBlock := hash, index := index } else g)

/-- Modelled from the spec and `GroupStore.spec.js`:
`GroupStore.updatePendingEncryptionKeys` replaces the stored group's
pending provisional keys. -/
def updatePendingEncryptionKeys (store : List StoredGroup) (groupId : List Nat)
    (keys : List PendingEncryptionKey) : List StoredGroup :=
  store.map (fun g =>
    if g.groupId == groupId then { g with pendingEncryptionKeys := keys } else g)

def pendingOfRecord (p : PendingGroupV2EncryptedKey) : PendingEncryptionKey :=
  { appPublicSignatureKey := p.pending_app_public_signature_key,
    tankerPublicSignatureKey := p.pending_tanker_public_signature_key,
    encryptedGroupPrivateEncryptionKey := p.encrypted_group_private_encryption_key }

/-- The group private encryption key recovered by `GroupUpdater` from the
entry's per-user sealed keys, then from the pending provisional keys. -/
def recoverGroupPrivateEncryptionKey (ctx : CryptoCtx) (userKeys : List GroupEncryptedKey)
    (pending : Option (List PendingGroupV2EncryptedKey)) : Option (List Nat) :=
  match findMyUserKeys ctx userKeys with
  | some (userKeyPair, groupEncryptedKey) => some (ctx.sealDecrypt groupEncryptedKey userKeyPair)
  | none =>
    match pending with
    | some pendingKeys =>
      match findMyProvisionalKeys ctx pendingKeys with
      | some (provisionalKeyPair, groupEncryptedKey) =>
        some (provisionalUnseal ctx groupEncryptedKey provisionalKeyPair)
      | none => none
    | none => none

/-- `GroupUpdater._applyUserGroupCreation`. -/
def applyUserGroupCreation (ctx : CryptoCtx) (store : List StoredGroup)
    (entry : UserGroupCreationEntry) : List StoredGroup :=
  match recoverGroupPrivateEncryptionKey ctx
      entry.encrypted_group_private_encryption_keys_for_users
      entry.pending_encrypted_group_private_encryption_keys_for_users with
  | some groupPrivateEncryptionKey =>
    let groupPrivateSignatureKey := ctx.sealDecrypt entry.encrypted_group_private_signature_key
      { publicKey := entry.public_encryption_key, privateKey := groupPrivateEncryptionKey }
    groupStorePut store
      { groupId := entry.public_signature_key,
        publicSignatureKey := entry.public_signature_key,
        publicEncryptionKey := entry.public_encryption_key,
        encryptedPrivateSignatureKey := none,
        signaturePrivateKey := some groupPrivateSignatureKey,
        encryptionPrivateKey := some groupPrivateEncryptionKey,
        pendingEncryptionKeys := [],
        lastGroupBlock := entry.hash,
        index := entry.index }
  | none =>
    groupStorePut store
      { groupId := entry.public_signature_key,
        publicSignatureKey := entry.public_signature_key,
        publicEncryptionKey := entry.public_encryption_key,
        encryptedPrivateSignatureKey := some entry.encrypted_group_private_signature_key,
        signaturePrivateKey := none,
        encryptionPrivateKey := none,
        pendingEncryptionKeys :=
          (entry.pending_encrypted_group_private_encryption_keys_for_users.getD []).map
            pendingOfRecord,
        lastGroupBlock := entry.hash,
        index := entry.index }

/-- `GroupUpdater._applyUserGroupAddition`; the missing-group assertion
throw is `internalError`. -/
def applyUserGroupAddition (ctx : CryptoCtx) (store : List StoredGroup)
    (entry : UserGroupAdditionEntry) : Except VErr (List StoredGroup) :=
  match findExternal store entry.group_id with
  | none => .error .internalError
  | some previousGroup =>
    let store1 := updateLastGroupBlock store entry.group_id entry.hash entry.index
    match recoverGroupPrivateEncryptionKey ctx
        entry.encrypted_group_private_encryption_keys_for_users
        entry.pending_encrypted_group_private_encryption_keys_for_users with
    | none =>
      match previousGroup.encryptedPrivateSignatureKey with
      | none => .ok store1
      | some _ =>
        .ok (updatePendingEncryptionKeys store1 previousGroup.groupId
          ((entry.pending_encrypted_group_private_encryption_keys_for_users.getD []).map
            pendingOfRecord))
    | some groupPrivateEncryptionKey =>
      match previousGroup.encryptedPrivateSignatureKey with
      | none => .ok store1
      | some encryptedPrivateSignatureKey =>
        let groupPrivateSignatureKey := ctx.sealDecrypt encryptedPrivateSignatureKey
          { publicKey := previousGroup.publicEncryptionKey,
            privateKey := groupPrivateEncryptionKey }
        .ok (groupStorePut store1
          { groupId := previousGroup.groupId,
            publicSignatureKey := previousGroup.publicSignatureKey,
            publicEncryptionKey := previousGroup.publicEncryptionKey,
            encryptedPrivateSignatureKey := none,
            signaturePrivateKey := some groupPrivateSignatureKey,
            encryptionPrivateKey := some groupPrivateEncryptionKey,
            pendingEncryptionKeys := [],
            lastGroupBlock := entry.hash,
            index := entry.index })

/-- One iteration of `TrustchainVerifier._unlockedProcessUserGroupEntries`
for a user-group-creation entry: look up the group, verify, and only on
success apply the entry to the store. -/
def processUserGroupCreationEntry (verifySig : List Nat → List Nat → List Nat → Bool)
    (ctx : CryptoCtx) (store : List StoredGroup) (entry : UserGroupCreationEntry)
    (authorEntry : Device) : List StoredGroup × Option VErr :=
  match verifyUserGroupCreationEntry verifySig entry authorEntry
      (findExternal store entry.public_signature_key) with
  | .error e => (store, some e)
  | .ok _ => (applyUserGroupCreation ctx store entry, none)

/-- One iteration of `TrustchainVerifier._unlockedProcessUserGroupEntries`
for a user-group-addition entry. -/
def processUserGroupAdditionEntry (verifySig : List Nat → List Nat → List Nat → Bool)
    (ctx : CryptoCtx) (store : List StoredGroup) (entry : UserGroupAdditionEntry)
    (authorEntry : Device) : List StoredGroup × Option VErr :=
  match verifyUserGroupAdditionEntry verifySig entry authorEntry
      (findExternal store entry.group_id) with
  | .error e => (store, some e)
  | .ok _ =>
    match applyUserGroupAddition ctx store entry with
    | .error e => (store, some e)
    | .ok store2 => (store2, none)

/-! ### Group-store update lemmas -/

lemma lastGroupBlock_of_mem_updateLastGroupBlock {store : List StoredGroup}
    {gid h : List Nat} {idx : Nat} :
    ∀ g ∈ updateLastGroupBlock store gid h idx, g.groupId = gid → g.lastGroupBlock = h := by
  intro g hg hgid
  rw [updateLastGroupBlock, List.mem_map] at hg
  obtain ⟨x, hx, hEq⟩ := hg
  by_cases hxg : x.groupId == gid
  · rw [if_pos hxg] at hEq
    rw [← hEq]
  · rw [if_neg hxg] at hEq
    exact absurd (by rw [hEq, hgid]; exact beq_self_eq_true gid) hxg

lemma mem_updatePendingEncryptionKeys {store : List StoredGroup} {gid : List Nat}
    {ks : List PendingEncryptionKey} :
    ∀ g ∈ updatePendingEncryptionKeys store gid ks,
      ∃ x ∈ store, g.groupId = x.groupId ∧ g.lastGroupBlock = x.lastGroupBlock := by
  intro g hg
  rw [updatePendingEncryptionKeys, List.mem_map] at hg
  obtain ⟨x, hx, hEq⟩ := hg
  refine ⟨x, hx, ?_⟩
  by_cases hxg : x.groupId == gid
  · rw [if_pos hxg] at hEq
    rw [← hEq]
    exact ⟨rfl, rfl⟩
  · rw [if_neg hxg] at hEq
    subst hEq
    exact ⟨rfl, rfl⟩

lemma mem_groupStorePut (P : StoredGroup → Prop) {store : List StoredGroup} {g : StoredGroup}
    (h1 : ∀ x ∈ store, P x) (h2 : P g) : ∀ y ∈ groupStorePut store g, P y := by
  intro y hy
  rw [groupStorePut] at hy
  by_cases hc : store.any (fun x => x.groupId == g.groupId)
  · rw [if_pos hc, List.mem_map] at hy
    obtain ⟨x, hx, hEq⟩ := hy
    by_cases hxg : x.groupId == g.groupId
    · rw [if_pos hxg] at hEq
      subst hEq
      exact h2
    · rw [if_neg hxg] at hEq
      subst hEq
      exact h1 x hx
  · rw [if_neg hc, List.mem_append] at hy
    rcases hy with hy | hy
    · exact h1 y hy
    · rw [List.mem_singleton] at hy
      subst hy
      exact h2

/-- **C2.** A user-group addition is accepted only when its
`previous_group_block` equals the stored group's current `lastGroupBlock`
(a mismatch is rejected as `invalid_previous_group_block`), and after a
successful application every stored record of that group has
`lastGroupBlock` equal to the entry's hash. -/
theorem c2_group_addition_previous_block :
    (∀ (verifySig : List Nat → List Nat → List Nat → Bool) (entry : UserGroupAdditionEntry)
       (authorEntry : Device) (g : StoredGroup),
       verifySig entry.hash entry.signature authorEntry.devicePublicSignatureKey = true →
       entry.previous_group_block ≠ g.lastGroupBlock →
       verifyUserGroupAdditionEntry verifySig entry authorEntry (some g) =
         .error (.invalidBlock .invalid_previous_group_block)) ∧
    (∀ (verifySig : List Nat → List Nat → List Nat → Bool) (entry : UserGroupAdditionEntry)
       (authorEntry : Device) (g : StoredGroup),
       verifyUserGroupAdditionEntry verifySig entry authorEntry (some g) = .ok () →
       entry.previous_group_block = g.lastGroupBlock) ∧
    (∀ (ctx : CryptoCtx) (store : List StoredGroup) (entry : UserGroupAdditionEntry)
       (store2 : List StoredGroup),
       applyUserGroupAddition ctx store entry = .ok store2 →
       ∀ g ∈ store2, g.groupId = entry.group_id → g.lastGroupBlock = entry.hash) := by
  have hmis : ∀ (verifySig : List Nat → List Nat → List Nat → Bool)
      (entry : UserGroupAdditionEntry) (authorEntry : Device) (g : StoredGroup),
      verifySig entry.hash entry.signature authorEntry.devicePublicSignatureKey = true →
      entry.previous_group_block ≠ g.lastGroupBlock →
      verifyUserGroupAdditionEntry verifySig entry authorEntry (some g) =
        .error (.invalidBlock .invalid_previous_group_block) := by
    intro vs entry a g hsig hprev
    rw [verifyUserGroupAdditionEntry, if_neg (not_not_intro hsig)]
    try dsimp only
    rw [if_pos hprev]
  refine ⟨hmis, ?_, ?_⟩
  · intro vs entry a g hok
    by_contra hne
    by_cases hsig : vs entry.hash entry.signature a.devicePublicSignatureKey = true
    · rw [hmis vs entry a g hsig hne] at hok
      exact Except.noConfusion hok
    · rw [verifyUserGroupAdditionEntry, if_pos hsig] at hok
      exact Except.noConfusion hok
  · intro ctx store entry store2 happ g hg hgid
    simp only [applyUserGroupAddition] at happ
    rcases hfind : findExternal store entry.group_id with _ | prev <;> rw [hfind] at happ
    · exact Except.noConfusion happ
    · dsimp only at happ
      rcases hrec : recoverGroupPrivateEncryptionKey ctx
          entry.encrypted_group_private_encryption_keys_for_users
          entry.pending_encrypted_group_private_encryption_keys_for_users with _ | k <;>
        rw [hrec] at happ <;> dsimp only at happ
      · rcases hpsk : prev.encryptedPrivateSignatureKey with _ | epsk <;>
          rw [hpsk] at happ <;> dsimp only at happ
        · injection happ with h2
          subst h2
          exact lastGroupBlock_of_mem_updateLastGroupBlock g hg hgid
        · injection happ with h2
          subst h2
          obtain ⟨x, hx, hgid', hlb⟩ := mem_updatePendingEncryptionKeys g hg
          rw [hgid'] at hgid
          rw [hlb]
          exact lastGroupBlock_of_mem_updateLastGroupBlock x hx hgid
      · rcases hpsk : prev.encryptedPrivateSignatureKey with _ | epsk <;>
          rw [hpsk] at happ <;> dsimp only at happ
        · injection happ with h2
          subst h2
          exact lastGroupBlock_of_mem_updateLastGroupBlock g hg hgid
        · injection happ with h2
          subst h2
          exact mem_groupStorePut
            (fun y => y.groupId = entry.group_id → y.lastGroupBlock = entry.hash)
            (fun x hx => lastGroupBlock_of_mem_updateLastGroupBlock x hx)
            (fun _ => rfl) g hg hgid

def exDevice : Device :=
  { deviceId := [], devicePublicSignatureKey := [], isGhostDevice := false,
    isServerDevice := false, revokedAt := 0 }

def exCtx : CryptoCtx :=
  { sealDecrypt := fun c _ => c, findUserKey := fun _ => none,
    findProvisionalKey := fun _ => none }

def c2ExGroup : StoredGroup :=
  { groupId := [2], publicSignatureKey := [], publicEncryptionKey := [],
    encryptedPrivateSignatureKey := none, signaturePrivateKey := none,
    encryptionPrivateKey := none, pendingEncryptionKeys := [],
    lastGroupBlock := [4], index := 0 }

def c2ExGroup3 : StoredGroup :=
  { groupId := [2], publicSignatureKey := [], publicEncryptionKey := [],
    encryptedPrivateSignatureKey := none, signaturePrivateKey := none,
    encryptionPrivateKey := none, pendingEncryptionKeys := [],
    lastGroupBlock := [1], index := 0 }

def c2ExEntry : UserGroupAdditionEntry :=
  { hash := [1], signature := [], author := [], index := 0, group_id := [2],
    previous_group_block := [3],
    encrypted_group_private_encryption_keys_for_users := [],
    pending_encrypted_group_private_encryption_keys_for_users := none,
    self_signature_with_current_key := [] }

def c2ExEntry2 : UserGroupAdditionEntry :=
  { hash := [1], signature := [], author := [], index := 0, group_id := [2],
    previous_group_block := [4],
    encrypted_group_private_encryption_keys_for_users := [],
    pending_encrypted_group_private_encryption_keys_for_users := none,
    self_signature_with_current_key := [] }

/-- Concrete instantiation of the three parts of the C2 theorem. -/
theorem c2_witness :
    verifyUserGroupAdditionEntry (fun _ _ _ => true) c2ExEntry exDevice (some c2ExGroup) =
      .error (.invalidBlock .invalid_previous_group_block) ∧
    c2ExEntry2.previous_group_block = c2ExGroup.lastGroupBlock ∧
    (∀ g ∈ [c2ExGroup3], g.groupId = c2ExEntry2.group_id → g.lastGroupBlock = c2ExEntry2.hash) :=
  ⟨c2_group_addition_previous_block.1 (fun _ _ _ => true) c2ExEntry exDevice c2ExGroup rfl
     (by decide),
   c2_group_addition_previous_block.2.1 (fun _ _ _ => true) c2ExEntry2 exDevice c2ExGroup rfl,
   c2_group_addition_previous_block.2.2 exCtx [c2ExGroup] c2ExEntry2 [c2ExGroup3] rfl⟩

/-- The self-signature check of `_verifyUserGroupCreationEntry`: when the
author signature verifies and no conflicting group exists, an invalid
self-signature is rejected as `invalid_self_signature`. -/
lemma verifyUserGroupCreationEntry_self_sig_fail
    (verifySig : List Nat → List Nat → List Nat → Bool) (entry : UserGroupCreationEntry)
    (authorEntry : Device) (existingGroup : Option StoredGroup)
    (hsig : verifySig entry.hash entry.signature authorEntry.devicePublicSignatureKey = true)
    (hgroup : ∀ g, existingGroup = some g →
      g.publicEncryptionKey = entry.public_encryption_key)
    (hself : verifySig (getUserGroupCreationBlockSignData entry) entry.self_signature
      entry.public_signature_key = false) :
    verifyUserGroupCreationEntry verifySig entry authorEntry existingGroup =
      .error (.invalidBlock .invalid_self_signature) := by
  rcases existingGroup with _ | g
  · rw [verifyUserGroupCreationEntry, if_neg (not_not_intro hsig)]
    dsimp only
    rw [if_neg (by simp), if_pos (by simp [hself])]
  · rw [verifyUserGroupCreationEntry, if_neg (not_not_intro hsig)]
    dsimp only
    rw [if_neg (by simp [hgroup g rfl]), if_pos (by simp [hself])]

/-- **C4.** If a user-group-creation entry's self-signature fails to
verify (as a corrupted signature does, by signature unforgeability) while
the author signature is valid and no conflicting group exists, processing
the entry rejects it with `invalid_self_signature` and returns the group
store unchanged. -/
theorem c4_tampered_group_creation_rejected
    (verifySig : List Nat → List Nat → List Nat → Bool) (ctx : CryptoCtx)
    (store : List StoredGroup) (entry : UserGroupCreationEntry) (authorEntry : Device)
    (hsig : verifySig entry.hash entry.signature authorEntry.devicePublicSignatureKey = true)
    (hgroup : ∀ g, findExternal store entry.public_signature_key = some g →
      g.publicEncryptionKey = entry.public_encryption_key)
    (hself : verifySig (getUserGroupCreationBlockSignData entry) entry.self_signature
      entry.public_signature_key = false) :
    processUserGroupCreationEntry verifySig ctx store entry authorEntry =
      (store, some (.invalidBlock .invalid_self_signature)) := by
  rw [processUserGroupCreationEntry,
    verifyUserGroupCreationEntry_self_sig_fail verifySig entry authorEntry _ hsig hgroup hself]

/-! ### C5: device-creation version against user-key presence -/

def c5ExEntry : DeviceCreationEntry :=
  { nature := NATURE.device_creation_v3, hash := [1], signature := [], author := [],
    index := 0, last_reset := [0, 0, 0], ephemeral_public_signature_key := [],
    user_id := [3], delegation_signature := [], public_signature_key := [],
    public_encryption_key := [], user_key_pair := none, is_ghost_device := false,
    is_server_device := false }

def c5ExEntryV1 : DeviceCreationEntry :=
  { nature := NATURE.device_creation_v1, hash := [1], signature := [], author := [],
    index := 0, last_reset := [0, 0, 0], ephemeral_public_signature_key := [],
    user_id := [3], delegation_signature := [], public_signature_key := [],
    public_encryption_key := [], user_key_pair := none, is_ghost_device := false,
    is_server_device := false }

def c5ExUser : User := { userId := [3], userPublicKeys := [], devices := [] }

def c5ExUserK : User :=
  { userId := [3], userPublicKeys := [{ userPublicKey := [5], index := 0 }], devices := [] }

/-- **C5 counterexample.** The verifier accepts a `device_creation_v3`
entry for a user that holds no user keys (the first-device bootstrap
case), refuting the claimed "v3 if and only if the user holds user keys":
only the direction "user holds keys → the entry must be v3" is enforced. -/
theorem c5_counterexample :
    verifyDeviceCreationEntry (fun _ _ _ => true) c5ExEntry none none [] (some c5ExUser) =
      .ok () ∧
    c5ExUser.userPublicKeys = [] ∧ c5ExEntry.nature = NATURE.device_creation_v3 :=
  ⟨rfl, rfl, rfl⟩

/-- **C5.** (amended) The device-creation version check is one-directional:
when the target user currently holds a user key, any nature other than
`device_creation_v3` is rejected as `forbidden`; equivalently, an accepted
entry for a user holding a user key is necessarily v3.  (A v3 entry for a
user without user keys is accepted — the first-device case.) -/
theorem c5_version_matches_key_presence :
    (∀ (verifySig : List Nat → List Nat → List Nat → Bool) (entry : DeviceCreationEntry)
       (authorUser : Option User) (authorDevice : Option Device) (authorKey : List Nat)
       (user : Option User),
       isNullArray entry.last_reset = true →
       (user.bind getLastUserPublicKey).isSome = true →
       entry.nature ≠ NATURE.device_creation_v3 →
       verifyDeviceCreationEntry verifySig entry authorUser authorDevice authorKey user =
         .error (.invalidBlock .forbidden)) ∧
    (∀ (verifySig : List Nat → List Nat → List Nat → Bool) (entry : DeviceCreationEntry)
       (authorUser : Option User) (authorDevice : Option Device) (authorKey : List Nat)
       (user : Option User),
       verifyDeviceCreationEntry verifySig entry authorUser authorDevice authorKey user =
         .ok () →
       (user.bind getLastUserPublicKey).isSome = true →
       entry.nature = NATURE.device_creation_v3) := by
  have hrej : ∀ (verifySig : List Nat → List Nat → List Nat → Bool)
      (entry : DeviceCreationEntry) (authorUser : Option User) (authorDevice : Option Device)
      (authorKey : List Nat) (user : Option User),
      isNullArray entry.last_reset = true →
      (user.bind getLastUserPublicKey).isSome = true →
      entry.nature ≠ NATURE.device_creation_v3 →
      verifyDeviceCreationEntry verifySig entry authorUser authorDevice authorKey user =
        .error (.invalidBlock .forbidden) := by
    intro vs entry au ad ak u hnull hsome hnat
    rw [verifyDeviceCreationEntry, if_neg (not_not_intro hnull)]
    try dsimp only
    rw [if_pos ⟨hsome, hnat⟩]
  refine ⟨hrej, ?_⟩
  intro vs entry au ad ak u hok hsome
  by_contra hnat
  by_cases hnull : isNullArray entry.last_reset = true
  · rw [hrej vs entry au ad ak u hnull hsome hnat] at hok
    exact Except.noConfusion hok
  · rw [verifyDeviceCreationEntry, if_pos hnull] at hok
    exact Except.noConfusion hok

/-- Concrete instantiation of the two parts of the C5 theorem. -/
theorem c5_witness :
    verifyDeviceCreationEntry (fun _ _ _ => true) c5ExEntryV1 none none []
      (some c5ExUserK) = .error (.invalidBlock .forbidden) ∧
    c5ExEntry.nature = NATURE.device_creation_v3 :=
  ⟨c5_version_matches_key_presence.1 (fun _ _ _ => true) c5ExEntryV1 none none []
     (some c5ExUserK) rfl rfl (by decide),
   c5_version_matches_key_presence.2 (fun _ _ _ => true) c5ExEntry none none []
     (some c5ExUserK) rfl rfl⟩

/-! ### C3: device-revocation v2 key checks -/

lemma recipients_multiset_eq {devs : List Device} {keys : List UserPrivateKey}
    (hnodup : (devs.map Device.deviceId).Nodup)
    (hlen : devs.length = keys.length)
    (hmem : ∀ d ∈ devs, ∃ k ∈ keys, k.recipient = d.deviceId) :
    (devs.map Device.deviceId : Multiset (List Nat)) =
      (keys.map UserPrivateKey.recipient : Multiset (List Nat)) := by
  have hsub : (devs.map Device.deviceId : Multiset (List Nat)) ⊆
      (keys.map UserPrivateKey.recipient : Multiset (List Nat)) := by
    intro a ha
    rw [Multiset.mem_coe, List.mem_map] at ha
    obtain ⟨d, hd, hda⟩ := ha
    obtain ⟨k, hk, hkr⟩ := hmem d hd
    rw [Multiset.mem_coe, List.mem_map]
    exact ⟨k, hk, by rw [hkr, hda]⟩
  have hle := (Multiset.le_iff_subset (by rwa [Multiset.coe_nodup])).mpr hsub
  refine Multiset.eq_of_le_of_card_le hle ?_
  rw [Multiset.coe_card, Multiset.coe_card, List.length_map, List.length_map, hlen]

/-- The two final checks of the v2 revocation branch (equal counts, and a
sealed key found for every active device) pin the recipients down to
exactly the active devices, when active device ids are distinct. -/
lemma revocation_new_keys_complete {devs : List Device} {keys : List UserPrivateKey}
    (hnodup : (devs.map Device.deviceId).Nodup)
    (hlen : ¬ devs.length ≠ keys.length)
    (hany : ¬ (devs.any
      (fun d => (keys.find? (fun k => k.recipient == d.deviceId)).isNone) = true)) :
    (devs.map Device.deviceId : Multiset (List Nat)) =
      (keys.map UserPrivateKey.recipient : Multiset (List Nat)) := by
  refine recipients_multiset_eq hnodup (not_not.mp hlen) ?_
  intro d hd
  rcases hfk : keys.find? (fun k => k.recipient == d.deviceId) with _ | k
  · exact absurd (List.any_eq_true.mpr ⟨d, hd, by rw [hfk]; rfl⟩) hany
  · exact ⟨k, List.mem_of_find?_eq_some hfk, by simpa using List.find?_some hfk⟩

/-- **C3.** (amended) An accepted v2 device revocation matches the user's
current user public key whenever the user has one, and — when the
remaining active devices have distinct ids — its `private_keys` hold
exactly one sealed entry per active device (equal multisets of
recipients and device ids: no missing device, no extra or duplicate
recipient).  When the user holds no user key the previous-key check is
skipped entirely. -/
theorem c3_revocation_v2_checks
    (verifySig : List Nat → List Nat → List Nat → Bool) (entry : DeviceRevocationEntry)
    (authorUserId authorKey : List Nat) (targetUser : User) (newKeys : UserKeys)
    (hnat : entry.nature ≠ NATURE.device_revocation_v1)
    (huk : entry.user_keys = some newKeys)
    (hnodup : ((targetUser.devices.filter
      (fun d => entry.index < d.revokedAt ∧ d.deviceId ≠ entry.device_id)).map
        Device.deviceId).Nodup)
    (hok : verifyDeviceRevocationEntry verifySig entry authorUserId authorKey
      (some targetUser) = .ok ()) :
    (∀ upk, getLastUserPublicKey targetUser = some upk →
      newKeys.previous_public_encryption_key = upk) ∧
    ((targetUser.devices.filter
      (fun d => entry.index < d.revokedAt ∧ d.deviceId ≠ entry.device_id)).map
        Device.deviceId : Multiset (List Nat)) =
      (newKeys.private_keys.map UserPrivateKey.recipient : Multiset (List Nat)) := by
  rw [verifyDeviceRevocationEntry] at hok
  by_cases hvs : verifySig entry.hash entry.signature authorKey = true
  · rw [if_neg (not_not_intro hvs)] at hok
    try dsimp only at hok
    rcases hfd : targetUser.devices.find? (fun d => d.deviceId == entry.device_id)
      with _ | revokedDevice <;> rw [hfd] at hok
    · exact Except.noConfusion hok
    · try dsimp only at hok
      by_cases hra : revokedDevice.revokedAt < entry.index
      · rw [if_pos hra] at hok
        exact Except.noConfusion hok
      · rw [if_neg hra] at hok
        by_cases hau : authorUserId ≠ targetUser.userId
        · rw [if_pos hau] at hok
          exact Except.noConfusion hok
        · rw [if_neg hau, if_neg hnat, huk] at hok
          try dsimp only at hok
          rcases hupk : getLastUserPublicKey targetUser with _ | upk <;>
            rw [hupk] at hok <;> try dsimp only at hok
          · rw [if_neg (by simp)] at hok
            try dsimp only at hok
            by_cases hlen : (targetUser.devices.filter
                (fun d => entry.index < d.revokedAt ∧ d.deviceId ≠ entry.device_id)).length ≠
                newKeys.private_keys.length
            · rw [if_pos hlen] at hok
              exact Except.noConfusion hok
            · rw [if_neg hlen] at hok
              by_cases hany : (targetUser.devices.filter
                  (fun d => entry.index < d.revokedAt ∧ d.deviceId ≠ entry.device_id)).any
                  (fun d =>
                    (newKeys.private_keys.find? (fun k => k.recipient == d.deviceId)).isNone) =
                  true
              · rw [if_pos hany] at hok
                exact Except.noConfusion hok
              · exact ⟨fun u h => Option.noConfusion h,
                  revocation_new_keys_complete hnodup hlen hany⟩
          · by_cases hprev : (newKeys.previous_public_encryption_key != upk) = true
            · rw [if_pos hprev] at hok
              exact Except.noConfusion hok
            · rw [if_neg hprev] at hok
              try dsimp only at hok
              have hprev' : newKeys.previous_public_encryption_key = upk := by
                simpa using hprev
              by_cases hlen : (targetUser.devices.filter
                  (fun d => entry.index < d.revokedAt ∧ d.deviceId ≠ entry.device_id)).length ≠
                  newKeys.private_keys.length
              · rw [if_pos hlen] at hok
                exact Except.noConfusion hok
              · rw [if_neg hlen] at hok
                by_cases hany : (targetUser.devices.filter
                    (fun d => entry.index < d.revokedAt ∧ d.deviceId ≠ entry.device_id)).any
                    (fun d =>
                      (newKeys.private_keys.find?
                        (fun k => k.recipient == d.deviceId)).isNone) = true
                · rw [if_pos hany] at hok
                  exact Except.noConfusion hok
                · refine ⟨fun u h => ?_, revocation_new_keys_complete hnodup hlen hany⟩
                  injection h with h2
                  subst h2
                  exact hprev'
  · rw [if_pos hvs] at hok
    exact Except.noConfusion hok

def c3ExDevice1 : Device :=
  { deviceId := [1], devicePublicSignatureKey := [], isGhostDevice := false,
    isServerDevice := false, revokedAt := 10 }

def c3ExKeys : UserKeys :=
  { public_encryption_key := [6], previous_public_encryption_key := [7],
    encrypted_previous_encryption_key := [], private_keys := [] }

def c3ExUser : User := { userId := [2], userPublicKeys := [], devices := [c3ExDevice1] }

def c3ExEntry : DeviceRevocationEntry :=
  { nature := NATURE.device_revocation_v2, hash := [], signature := [], author := [],
    index := 5, device_id := [1], user_keys := some c3ExKeys }

/-- **C3 counterexample.** A v2 revocation whose
`previous_public_encryption_key` is junk is accepted when the target user
holds no user key: the previous-key comparison is skipped in that case, so
"accepted only if it equals the user's current (last) user public key"
does not hold as stated. -/
theorem c3_counterexample :
    verifyDeviceRevocationEntry (fun _ _ _ => true) c3ExEntry [2] [] (some c3ExUser) =
      .ok () ∧
    getLastUserPublicKey c3ExUser = none ∧
    c3ExKeys.previous_public_encryption_key = [7] :=
  ⟨rfl, rfl, rfl⟩

def c3WDevice2 : Device :=
  { deviceId := [3], devicePublicSignatureKey := [], isGhostDevice := false,
    isServerDevice := false, revokedAt := 10 }

def c3WKeys : UserKeys :=
  { public_encryption_key := [6], previous_public_encryption_key := [5],
    encrypted_previous_encryption_key := [],
    private_keys := [{ recipient := [3], key := [9] }] }

def c3WUser : User :=
  { userId := [2], userPublicKeys := [{ userPublicKey := [5], index := 0 }],
    devices := [c3ExDevice1, c3WDevice2] }

def c3WEntry : DeviceRevocationEntry :=
  { nature := NATURE.device_revocation_v2, hash := [], signature := [], author := [],
    index := 5, device_id := [1], user_keys := some c3WKeys }

/-- Concrete instantiation of the C3 theorem. -/
theorem c3_witness :
    (∀ upk, getLastUserPublicKey c3WUser = some upk →
      c3WKeys.previous_public_encryption_key = upk) ∧
    ((c3WUser.devices.filter
      (fun d => c3WEntry.index < d.revokedAt ∧ d.deviceId ≠ c3WEntry.device_id)).map
        Device.deviceId : Multiset (List Nat)) =
      (c3WKeys.private_keys.map UserPrivateKey.recipient : Multiset (List Nat)) :=
  c3_revocation_v2_checks (fun _ _ _ => true) c3WEntry [2] [] c3WUser c3WKeys
    (by decide) rfl (by decide) rfl

/-! ### C6: key publish to user -/

/-- On an index-sorted list, the first entry `find?` returns has the least
index among entries satisfying the predicate. -/
lemma find?_index_min {p : UserPublicKeyEntry → Bool} :
    ∀ (l : List UserPublicKeyEntry) (f : UserPublicKeyEntry), l.find? p = some f →
      l.Pairwise (fun a b => a.index ≤ b.index) →
      ∀ k ∈ l, p k = true → f.index ≤ k.index := by
  intro l
  induction l with
  | nil => intro f hf _; exact absurd hf (by simp)
  | cons a t ih =>
    intro f hf hs k hk hpk
    obtain ⟨ha, hs'⟩ := List.pairwise_cons.mp hs
    by_cases hpa : p a = true
    · rw [List.find?_cons_of_pos t hpa] at hf
      injection hf with hf2
      subst hf2
      rcases List.mem_cons.mp hk with rfl | hk'
      · exact Nat.le_refl _
      · exact ha k hk'
    · rw [List.find?_cons_of_neg t hpa] at hf
      rcases List.mem_cons.mp hk with rfl | hk'
      · exact absurd hpk hpa
      · exact ih f hf hs' k hk' hpk

/-- **C6.** For a key publish to a user public key `P` owned by the found
recipient, under the append-only invariant that `userPublicKeys` is sorted
by index: the entry is accepted exactly when `P` was appended at an index
not above the entry's and no later user key of the recipient was appended
strictly before the entry's index; the only other outcome is rejection
with `invalid_user_public_key`. -/
theorem c6_key_publish_to_user_recipient_key
    (userStore : List User) (entry : KeyPublishEntry) (recipient : User)
    (indexUserKey : UserPublicKeyEntry)
    (hfind : findUserByUserPublicKey userStore entry.recipient = some recipient)
    (hkey : recipient.userPublicKeys.find? (fun k => k.userPublicKey == entry.recipient) =
      some indexUserKey)
    (hsorted : recipient.userPublicKeys.Pairwise (fun a b => a.index ≤ b.index)) :
    (verifyKeyPublishToUserEntry userStore entry = .ok () ↔
      (indexUserKey.index ≤ entry.index ∧
       ∀ k ∈ recipient.userPublicKeys, indexUserKey.index < k.index →
         entry.index ≤ k.index)) ∧
    (verifyKeyPublishToUserEntry userStore entry = .ok () ∨
     verifyKeyPublishToUserEntry userStore entry =
       .error (.invalidBlock .invalid_user_public_key)) := by
  rw [verifyKeyPublishToUserEntry, hfind]
  try dsimp only
  rw [hkey]
  try dsimp only
  by_cases h1 : entry.index < indexUserKey.index
  · rw [if_pos h1]
    refine ⟨⟨fun h => absurd h (by simp), ?_⟩, Or.inr rfl⟩
    rintro ⟨hle, _⟩
    exact absurd (Nat.lt_of_lt_of_le h1 hle) (Nat.lt_irrefl _)
  · have h1' : indexUserKey.index ≤ entry.index := Nat.le_of_not_lt h1
    rw [if_neg h1]
    rcases hfut : recipient.userPublicKeys.find? (fun k => indexUserKey.index < k.index)
      with _ | fut <;> try rw [hfut]
    · refine ⟨⟨fun _ => ⟨h1', ?_⟩, fun _ => rfl⟩, Or.inl rfl⟩
      intro k hk hlt
      exact absurd (decide_eq_true hlt) (List.find?_eq_none.mp hfut k hk)
    · try dsimp only
      have hfutmem := List.mem_of_find?_eq_some hfut
      have hfutp : indexUserKey.index < fut.index := by simpa using List.find?_some hfut
      have hmin := find?_index_min recipient.userPublicKeys fut hfut hsorted
      by_cases h2 : fut.index < entry.index
      · rw [if_pos h2]
        refine ⟨⟨fun h => absurd h (by simp), ?_⟩, Or.inr rfl⟩
        rintro ⟨_, hall⟩
        exact absurd (Nat.lt_of_lt_of_le h2 (hall fut hfutmem hfutp)) (Nat.lt_irrefl _)
      · rw [if_neg h2]
        have h2' : entry.index ≤ fut.index := Nat.le_of_not_lt h2
        refine ⟨⟨fun _ => ⟨h1', ?_⟩, fun _ => rfl⟩, Or.inl rfl⟩
        intro k hk hlt
        exact Nat.le_trans h2' (hmin k hk (decide_eq_true hlt))

def c6ExKey1 : UserPublicKeyEntry := { userPublicKey := [5], index := 1 }

def c6ExKey2 : UserPublicKeyEntry := { userPublicKey := [6], index := 3 }

def c6ExUser : User :=
  { userId := [1], userPublicKeys := [c6ExKey1, c6ExKey2], devices := [] }

def c6ExEntry : KeyPublishEntry :=
  { nature := NATURE.key_publish_to_user, hash := [], signature := [], author := [],
    index := 2, recipient := [5], resourceId := [], key := [] }

/-- Concrete instantiation of the C6 theorem. -/
theorem c6_witness :
    (verifyKeyPublishToUserEntry [c6ExUser] c6ExEntry = .ok () ↔
      (c6ExKey1.index ≤ c6ExEntry.index ∧
       ∀ k ∈ c6ExUser.userPublicKeys, c6ExKey1.index < k.index →
         c6ExEntry.index ≤ k.index)) ∧
    (verifyKeyPublishToUserEntry [c6ExUser] c6ExEntry = .ok () ∨
     verifyKeyPublishToUserEntry [c6ExUser] c6ExEntry =
       .error (.invalidBlock .invalid_user_public_key)) :=
  c6_key_publish_to_user_recipient_key [c6ExUser] c6ExEntry c6ExUser c6ExKey1 rfl rfl
    (by decide)

/-! ### C9: the set of verifier rejection codes -/

/-- The code set named by the spec. -/
def claimedVerifierCodes : List ErrorCode :=
  [.invalid_author, .invalid_signature, .invalid_delegation_signature, .invalid_nature,
   .invalid_user_public_key, .forbidden, .revoked_author, .group_already_exists,
   .invalid_previous_group_block, .invalid_self_signature, .invalid_revoked_device,
   .missing_user_keys, .version_mismatch]

/-- The codes actually raised by the `_verify*Entry` functions. -/
def actualVerifierCodes : List ErrorCode :=
  [.invalid_nature, .invalid_author_for_trustchain_creation, .invalid_signature,
   .invalid_root_block, .forbidden, .invalid_last_reset, .invalid_delegation_signature,
   .invalid_public_user_key, .invalid_author_type, .invalid_recipient, .version_mismatch,
   .invalid_user_public_key, .invalid_user_group_public_key, .group_already_exists,
   .invalid_self_signature, .invalid_group_id, .invalid_previous_group_block,
   .invalid_revoked_user, .invalid_revoked_device, .device_already_revoked,
   .invalid_revocation_version, .missing_user_keys, .invalid_previous_key,
   .invalid_new_key]

/-- Every `invalid_block` code the result can carry belongs to `codes`. -/
def errorCodeWithin (r : Except VErr Unit) (codes : List ErrorCode) : Prop :=
  ∀ c, r = .error (.invalidBlock c) → c ∈ codes

def c9ExEntry : DeviceRevocationEntry :=
  { nature := NATURE.device_revocation_v2, hash := [], signature := [], author := [],
    index := 0, device_id := [], user_keys := none }

/-- **C9 counterexample.** The verifier rejects a revocation of an unknown
user with `invalid_revoked_user`, a code outside the spec's claimed set. -/
theorem c9_counterexample :
    verifyDeviceRevocationEntry (fun _ _ _ => true) c9ExEntry [] [] none =
      .error (.invalidBlock .invalid_revoked_user) ∧
    ErrorCode.invalid_revoked_user ∉ claimedVerifierCodes :=
  ⟨rfl, by decide⟩

/-- **C9.** (amended) Every rejection of the `_verify*Entry` functions is
an `InvalidBlock` whose code lies in `actualVerifierCodes` (plus the
assertion-failure paths, which are plain errors without a code); the
spec's claimed set both misses eleven raised codes and lists
`invalid_author` and `revoked_author`, which no raise site uses. -/
theorem c9_error_code_set :
    (∀ tid e, errorCodeWithin (verifyTrustchainCreationEntry tid e) actualVerifierCodes) ∧
    (∀ e u, errorCodeWithin (verifyUserCreationEntry e u) actualVerifierCodes) ∧
    (∀ vs e au ad ak u,
      errorCodeWithin (verifyDeviceCreationEntry vs e au ad ak u) actualVerifierCodes) ∧
    (∀ us e, errorCodeWithin (verifyKeyPublishToDeviceEntry us e) actualVerifierCodes) ∧
    (∀ us e, errorCodeWithin (verifyKeyPublishToUserEntry us e) actualVerifierCodes) ∧
    (∀ gs e, errorCodeWithin (verifyKeyPublishToUserGroupEntry gs e) actualVerifierCodes) ∧
    (∀ vs us gs e a,
      errorCodeWithin (verifyKeyPublishEntry vs us gs e a) actualVerifierCodes) ∧
    (∀ vs e a g,
      errorCodeWithin (verifyUserGroupCreationEntry vs e a g) actualVerifierCodes) ∧
    (∀ vs e a g,
      errorCodeWithin (verifyUserGroupAdditionEntry vs e a g) actualVerifierCodes) ∧
    (∀ vs e aid ak tu,
      errorCodeWithin (verifyDeviceRevocationEntry vs e aid ak tu) actualVerifierCodes) := by
  refine ⟨?_, ?_, ?_, ?_, ?_, ?_, ?_, ?_, ?_, ?_⟩
  · intro tid e c h
    simp only [verifyTrustchainCreationEntry] at h
    repeat' split at h
    all_goals
      first
        | exact Except.noConfusion h
        | (simp at h; subst h; decide)
        | simp at h
  · intro e u c h
    simp only [verifyUserCreationEntry] at h
    repeat' split at h
    all_goals
      first
        | exact Except.noConfusion h
        | (simp at h; subst h; decide)
        | simp at h
  · intro vs e au ad ak u c h
    simp only [verifyDeviceCreationEntry, verifyUserCreationEntry] at h
    repeat' split at h
    all_goals
      first
        | exact Except.noConfusion h
        | (simp at h; subst h; decide)
        | simp at h
  · intro us e c h
    simp only [verifyKeyPublishToDeviceEntry] at h
    repeat' split at h
    all_goals
      first
        | exact Except.noConfusion h
        | (simp at h; subst h; decide)
        | simp at h
  · intro us e c h
    simp only [verifyKeyPublishToUserEntry] at h
    repeat' split at h
    all_goals
      first
        | exact Except.noConfusion h
        | (simp at h; subst h; decide)
        | simp at h
  · intro gs e c h
    simp only [verifyKeyPublishToUserGroupEntry] at h
    repeat' split at h
    all_goals
      first
        | exact Except.noConfusion h
        | (simp at h; subst h; decide)
        | simp at h
  · intro vs us gs e a c h
    simp only [verifyKeyPublishEntry, verifyKeyPublishToDeviceEntry,
      verifyKeyPublishToUserEntry, verifyKeyPublishToUserGroupEntry] at h
    repeat' split at h
    all_goals
      first
        | exact Except.noConfusion h
        | (simp at h; subst h; decide)
        | simp at h
  · intro vs e a g c h
    simp only [verifyUserGroupCreationEntry] at h
    repeat' split at h
    all_goals
      first
        | exact Except.noConfusion h
        | (simp at h; subst h; decide)
        | simp at h
  · intro vs e a g c h
    simp only [verifyUserGroupAdditionEntry] at h
    repeat' split at h
    all_goals
      first
        | exact Except.noConfusion h
        | (simp at h; subst h; decide)
        | simp at h
  · intro vs e aid ak tu c h
    simp only [verifyDeviceRevocationEntry] at h
    repeat' split at h
    all_goals
      first
        | exact Except.noConfusion h
        | (simp at h; subst h; decide)
        | simp at h

def c9ExEntry2 : UnverifiedEntry :=
  { nature := 0, hash := [], signature := [], author := [], index := 0 }

/-- Concrete instantiation of the C9 theorem: a wrong-nature trustchain
creation rejects with `invalid_nature`, a member of the actual code set. -/
theorem c9_witness : ErrorCode.invalid_nature ∈ actualVerifierCodes :=
  c9_error_code_set.1 [] c9ExEntry2 ErrorCode.invalid_nature rfl

/-! ### C7: streaming AEAD (`DataProtection/StreamEncryptor.js`, `StreamDecryptor`)

`tcrypto.deriveKey`, `aead.encryptAEADv2` (with its random nonce),
`aead.decryptAEADv2` (which throws on a forged ciphertext, modelled as
`none`) and the decryptor's key mapper are external primitives, bundled
into a context.  The encryptor emits the header `varint(version) ‖
resourceId` followed by one AEAD ciphertext per written chunk; the
decryptor's output buffering by `blockSize` only re-chunks the same byte
stream, so the model returns the concatenated output. -/

def streamEncryptorVersion : Nat := 1

structure StreamCrypto where
  deriveKey : List Nat → Nat → List Nat
  encryptAEADv2 : List Nat → List Nat → List Nat
  decryptAEADv2 : List Nat → List Nat → Option (List Nat)
  findKey : List Nat → List Nat

inductive StreamErr
  | rangeError
  | invalidEncryptionFormat
  | decryptionFailed
deriving DecidableEq, Repr

/-- The encryptor's transform stream: chunk number `i` is encrypted under
`deriveKey key i`, and `_index` advances by one per chunk. -/
def encryptChunksFrom (sc : StreamCrypto) (key : List Nat) :
    Nat → List (List Nat) → List (List Nat)
  | _, [] => []
  | i, clearData :: rest =>
    sc.encryptAEADv2 (sc.deriveKey key i) clearData :: encryptChunksFrom sc key (i + 1) rest

/-- The wire writes produced by `StreamEncryptor`: `_writeHeader` emits
`varint(streamEncryptorVersion) ‖ resourceId` before the first encrypted
chunk. -/
def streamEncryptorWrites (sc : StreamCrypto) (resourceId key : List Nat)
    (chunks : List (List Nat)) : List (List Nat) :=
  match chunks with
  | [] => [varintEncode streamEncryptorVersion ++ resourceId]
  | c :: cs =>
    (varintEncode streamEncryptorVersion ++
      (resourceId ++ sc.encryptAEADv2 (sc.deriveKey key 0) c)) ::
      encryptChunksFrom sc key 1 cs

/-- `StreamDecryptor._findAndRemoveKeyFromData`. -/
def findAndRemoveKeyFromData (sc : StreamCrypto) (encryptedData : List Nat) :
    Except StreamErr (List Nat × List Nat × List Nat) :=
  match varintDecodeAt encryptedData 0 with
  | .error _ => .error .rangeError
  | .ok (version, bytes) =>
    let binaryData := encryptedData.drop bytes
    if version = 1 then
      let resourceId := binaryData.take MAC_SIZE
      .ok (sc.findKey resourceId, resourceId, binaryData.drop MAC_SIZE)
    else .error .invalidEncryptionFormat

/-- One `StreamDecryptor.write`: the first write strips the header, every
write decrypts one chunk under `deriveKey key index`. -/
def streamDecryptorWrite (sc : StreamCrypto) (state : Option (List Nat × List Nat))
    (index : Nat) (encryptedData : List Nat) :
    Except StreamErr ((List Nat × List Nat) × List Nat) :=
  match state with
  | none =>
    match findAndRemoveKeyFromData sc encryptedData with
    | .error e => .error e
    | .ok (key, resourceId, binaryData) =>
      match sc.decryptAEADv2 (sc.deriveKey key index) binaryData with
      | none => .error .decryptionFailed
      | some clearData => .ok ((key, resourceId), clearData)
  | some pair =>
    match sc.decryptAEADv2 (sc.deriveKey pair.1 index) encryptedData with
    | none => .error .decryptionFailed
    | some clearData => .ok (pair, clearData)

def streamDecryptorRun (sc : StreamCrypto) :
    Option (List Nat × List Nat) → Nat → List (List Nat) → Except StreamErr (List Nat)
  | _, _, [] => .ok []
  | state, index, d :: ds =>
    match streamDecryptorWrite sc state index d with
    | .error e => .error e
    | .ok (state2, clearData) =>
      match streamDecryptorRun sc (some state2) (index + 1) ds with
      | .error e => .error e
      | .ok out => .ok (clearData ++ out)

/-- A full decryptor session over a list of writes (then `close` flushes
the remaining buffered output, so the result is the concatenation). -/
def decryptStream (sc : StreamCrypto) (writes : List (List Nat)) :
    Except StreamErr (List Nat) :=
  streamDecryptorRun sc none 0 writes

lemma streamDecryptorRun_encryptChunks (sc : StreamCrypto) (key rid : List Nat)
    (hdec : ∀ k p, sc.decryptAEADv2 k (sc.encryptAEADv2 k p) = some p) :
    ∀ (cs : List (List Nat)) (i : Nat),
      streamDecryptorRun sc (some (key, rid)) i (encryptChunksFrom sc key i cs) =
        .ok cs.flatten := by
  intro cs
  induction cs with
  | nil => intro i; rfl
  | cons c cs ih =>
    intro i
    simp only [encryptChunksFrom, streamDecryptorRun, streamDecryptorWrite, hdec, ih,
      List.flatten_cons]

lemma streamDecryptorRun_corrupt (sc : StreamCrypto) (key rid : List Nat)
    (hdec : ∀ k p, sc.decryptAEADv2 k (sc.encryptAEADv2 k p) = some p) :
    ∀ (cs : List (List Nat)) (i j : Nat) (c' : List Nat), j < cs.length →
      sc.decryptAEADv2 (sc.deriveKey key (i + j)) c' = none →
      streamDecryptorRun sc (some (key, rid)) i
        ((encryptChunksFrom sc key i cs).set j c') = .error .decryptionFailed := by
  intro cs
  induction cs with
  | nil => intro i j c' hj _; exact absurd hj (by simp)
  | cons c cs ih =>
    intro i j c' hj hnone
    cases j with
    | zero =>
      rw [Nat.add_zero] at hnone
      simp only [encryptChunksFrom, List.set_cons_zero, streamDecryptorRun,
        streamDecryptorWrite, hnone]
    | succ j =>
      simp only [encryptChunksFrom, List.set_cons_succ, streamDecryptorRun,
        streamDecryptorWrite, hdec]
      rw [ih (i + 1) j c' (Nat.lt_of_succ_lt_succ hj)
        (by rw [show i + 1 + j = i + (j + 1) from by omega]; exact hnone)]

/-- **C7.** Chunk `i` is encrypted under `deriveKey(resourceKey, i)` with
the index starting at 0 and advancing by one per chunk; decrypting the
encryptor's writes (header `varint(1) ‖ resourceId`, then the encrypted
chunks) restores the plaintext byte-for-byte; and replacing an encrypted
chunk with one that fails AEAD authentication makes decryption fail at
that chunk. -/
theorem c7_streaming_round_trip (sc : StreamCrypto) (resourceId key : List Nat)
    (hdec : ∀ k p, sc.decryptAEADv2 k (sc.encryptAEADv2 k p) = some p)
    (hfind : sc.findKey resourceId = key)
    (hrid : resourceId.length = MAC_SIZE) :
    (∀ (chunks : List (List Nat)) (i j : Nat),
       (encryptChunksFrom sc key i chunks)[j]? =
         (chunks[j]?).map (fun c => sc.encryptAEADv2 (sc.deriveKey key (i + j)) c)) ∧
    (∀ (c : List Nat) (cs : List (List Nat)),
       decryptStream sc (streamEncryptorWrites sc resourceId key (c :: cs)) =
         .ok ((c :: cs).flatten)) ∧
    (∀ (c c' : List Nat) (cs : List (List Nat)) (j : Nat), j < cs.length →
       sc.decryptAEADv2 (sc.deriveKey key (1 + j)) c' = none →
       decryptStream sc
         ((varintEncode streamEncryptorVersion ++
           (resourceId ++ sc.encryptAEADv2 (sc.deriveKey key 0) c)) ::
           (encryptChunksFrom sc key 1 cs).set j c') = .error .decryptionFailed) := by
  have hfar : ∀ e0 : List Nat,
      findAndRemoveKeyFromData sc
        (varintEncode streamEncryptorVersion ++ (resourceId ++ e0)) =
        .ok (key, resourceId, e0) := by
    intro e0
    rw [findAndRemoveKeyFromData]
    have hv : varintDecodeAt (varintEncode streamEncryptorVersion ++ (resourceId ++ e0)) 0 =
        .ok (1, 1) := rfl
    rw [hv]
    dsimp only
    rw [if_pos rfl]
    have hbin : (varintEncode streamEncryptorVersion ++ (resourceId ++ e0)).drop 1 =
        resourceId ++ e0 := rfl
    rw [hbin, List.take_left' hrid, List.drop_left' hrid, hfind]
  refine ⟨?_, ?_, ?_⟩
  · intro chunks
    induction chunks with
    | nil => intro i j; simp [encryptChunksFrom]
    | cons c cs ih =>
      intro i j
      cases j with
      | zero => simp [encryptChunksFrom]
      | succ j =>
        simp only [encryptChunksFrom, List.getElem?_cons_succ]
        rw [ih (i + 1) j, show i + 1 + j = i + (j + 1) from by omega]
  · intro c cs
    rw [decryptStream]
    simp only [streamEncryptorWrites, streamDecryptorRun, streamDecryptorWrite, hfar, hdec,
      streamDecryptorRun_encryptChunks sc key resourceId hdec, List.flatten_cons]
  · intro c c' cs j hj hnone
    rw [decryptStream]
    simp only [streamDecryptorRun, streamDecryptorWrite, hfar, hdec,
      streamDecryptorRun_corrupt sc key resourceId hdec cs 1 j c' hj hnone]

def c7Sc : StreamCrypto :=
  { deriveKey := fun k i => i :: k,
    encryptAEADv2 := fun k p => k.length :: p,
    decryptAEADv2 := fun k c =>
      match c with
      | [] => none
      | x :: xs => if x = k.length then some xs else none,
    findKey := fun _ => [9] }

def c7Rid : List Nat := List.replicate 16 7

def c7Key : List Nat := [9]

/-- Concrete instantiation of the three parts of the C7 theorem. -/
theorem c7_witness :
    (encryptChunksFrom c7Sc c7Key 0 [[5], [6]])[1]? =
      (([[5], [6]] : List (List Nat))[1]?).map
        (fun c => c7Sc.encryptAEADv2 (c7Sc.deriveKey c7Key (0 + 1)) c) ∧
    decryptStream c7Sc (streamEncryptorWrites c7Sc c7Rid c7Key ([5] :: [[6]])) =
      .ok (([5] :: [[6]] : List (List Nat)).flatten) ∧
    decryptStream c7Sc
      ((varintEncode streamEncryptorVersion ++
        (c7Rid ++ c7Sc.encryptAEADv2 (c7Sc.deriveKey c7Key 0) [5])) ::
        (encryptChunksFrom c7Sc c7Key 1 [[6]]).set 0 []) = .error .decryptionFailed :=
  ⟨(c7_streaming_round_trip c7Sc c7Rid c7Key (by intro k p; simp [c7Sc]) rfl
      (by decide)).1 [[5], [6]] 0 1,
   (c7_streaming_round_trip c7Sc c7Rid c7Key (by intro k p; simp [c7Sc]) rfl
      (by decide)).2.1 [5] [[6]],
   (c7_streaming_round_trip c7Sc c7Rid c7Key (by intro k p; simp [c7Sc]) rfl
      (by decide)).2.2 [5] [] [[6]] 0 (by decide) rfl⟩

/-! ### C10: `Resource/ResourceStore.js`

The datastore is a keyed table (keys are base64-encoded resource ids;
base64 is injective, so ids are kept as byte lists); `EncryptorV1` with
the user secret and the resource id as associated data is an external
primitive. -/

structure ResourceCrypto where
  encrypt : List Nat → List Nat → List Nat → List Nat
  decrypt : List Nat → List Nat → List Nat → List Nat

/-- `_ds.get(TABLE, id)`: `none` is the `RecordNotFound` case. -/
def dsGet : List (List Nat × List Nat) → List Nat → Option (List Nat)
  | [], _ => none
  | r :: rest, id => if r.1 == id then some r.2 else dsGet rest id

/-- `ResourceStore.saveResourceKey`: if a record already exists for the
resource id the new key is ignored, otherwise the encrypted key is put. -/
def saveResourceKey (rc : ResourceCrypto) (userSecret : List Nat)
    (db : List (List Nat × List Nat)) (resourceId key : List Nat) :
    List (List Nat × List Nat) :=
  let encryptedKey := rc.encrypt userSecret key resourceId
  match dsGet db resourceId with
  | some _ => db
  | none => db ++ [(resourceId, encryptedKey)]

/-- `ResourceStore.findResourceKey`: `undefined` on `RecordNotFound`. -/
def findResourceKey (rc : ResourceCrypto) (userSecret : List Nat)
    (db : List (List Nat × List Nat)) (resourceId : List Nat) : Option (List Nat) :=
  match dsGet db resourceId with
  | some encryptedKey => some (rc.decrypt userSecret encryptedKey resourceId)
  | none => none

lemma dsGet_append_self : ∀ {db : List (List Nat × List Nat)} {rid e : List Nat},
    dsGet db rid = none → dsGet (db ++ [(rid, e)]) rid = some e := by
  intro db
  induction db with
  | nil => intro rid e _; simp [dsGet]
  | cons a l ih =>
    intro rid e h
    rw [dsGet] at h
    by_cases ha : a.1 == rid
    · rw [if_pos ha] at h
      exact Option.noConfusion h
    · rw [if_neg ha] at h
      rw [List.cons_append, dsGet, if_neg ha]
      exact ih h

/-- **C10.** The resource-key cache is write-once per resource id: a
second save for the same id leaves the store unchanged, lookup returns the
first saved key (decrypting what was encrypted at save time), and lookup
of a never-saved id returns nothing. -/
theorem c10_resource_store_write_once (rc : ResourceCrypto) (us : List Nat)
    (hroundtrip : ∀ k r, rc.decrypt us (rc.encrypt us k r) r = k) :
    (∀ (db : List (List Nat × List Nat)) (resourceId k1 k2 : List Nat),
       saveResourceKey rc us (saveResourceKey rc us db resourceId k1) resourceId k2 =
         saveResourceKey rc us db resourceId k1) ∧
    (∀ (db : List (List Nat × List Nat)) (resourceId k1 : List Nat),
       dsGet db resourceId = none →
       findResourceKey rc us (saveResourceKey rc us db resourceId k1) resourceId =
         some k1) ∧
    (∀ (db : List (List Nat × List Nat)) (resourceId : List Nat),
       dsGet db resourceId = none → findResourceKey rc us db resourceId = none) := by
  refine ⟨?_, ?_, ?_⟩
  · intro db rid k1 k2
    rcases hg : dsGet db rid with _ | e
    · simp only [saveResourceKey, hg]
      rw [dsGet_append_self hg]
    · simp only [saveResourceKey, hg]
  · intro db rid k1 hg
    simp only [saveResourceKey, findResourceKey, hg]
    rw [dsGet_append_self hg]
    try dsimp only
    rw [hroundtrip]
  · intro db rid hg
    simp only [findResourceKey, hg]

def c10Rc : ResourceCrypto := { encrypt := fun _ k _ => k, decrypt := fun _ c _ => c }

/-- Concrete instantiation of the three parts of the C10 theorem. -/
theorem c10_witness :
    saveResourceKey c10Rc [] (saveResourceKey c10Rc [] [] [1] [2]) [1] [3] =
      saveResourceKey c10Rc [] [] [1] [2] ∧
    findResourceKey c10Rc [] (saveResourceKey c10Rc [] [] [1] [2]) [1] = some [2] ∧
    findResourceKey c10Rc [] [] [1] = none :=
  ⟨(c10_resource_store_write_once c10Rc [] (fun k r => rfl)).1 [] [1] [2] [3],
   (c10_resource_store_write_once c10Rc [] (fun k r => rfl)).2.1 [] [1] [2] rfl,
   (c10_resource_store_write_once c10Rc [] (fun k r => rfl)).2.2 [] [1] rfl⟩

def c4ExVs : List Nat → List Nat → List Nat → Bool := fun m _ _ => m == [1]

def c4ExEntry : UserGroupCreationEntry :=
  { hash := [1], signature := [], author := [], index := 0,
    public_signature_key := [2], public_encryption_key := [],
    encrypted_group_private_signature_key := [],
    encrypted_group_private_encryption_keys_for_users := [],
    pending_encrypted_group_private_encryption_keys_for_users := none,
    self_signature := [] }

/-- Concrete instantiation of the C4 theorem: the author signature
verifies, the self-signature does not, the store is empty and stays so. -/
theorem c4_witness :
    processUserGroupCreationEntry c4ExVs exCtx [] c4ExEntry exDevice =
      ([], some (.invalidBlock .invalid_self_signature)) :=
  c4_tampered_group_creation_rejected c4ExVs exCtx [] c4ExEntry exDevice rfl
    (fun g h => absurd h (by simp [findExternal])) rfl

end Tanker
